import Mathlib

/-!
Verification of the Python-Portfolio-Analyzer core against its
natural-language specification.

The Python sources are shallowly embedded: dictionaries become association
lists (insertion order preserved, as in CPython), pandas series become
`List` values, Python floats become `Rat`, `datetime` values become `Int`
minute counts, raised exceptions become `Except String` results, and a
Python `try/except` becomes a `match` on the `Except` value.
-/

namespace PortfolioAnalyzer

/-! ## Python primitives -/

/-- Python `abs` on rationals. -/
def ratAbs (q : Rat) : Rat := if q < 0 then -q else q

/-- Python `min` of two rationals. -/
def ratMin2 (a b : Rat) : Rat := if a ≤ b then a else b

/-- Python `max` of two rationals. -/
def ratMax2 (a b : Rat) : Rat := if a ≤ b then b else a

/-- Python `str.lower()` (ASCII, which is all the source compares). -/
def strLower (s : String) : String := ⟨s.data.map Char.toLower⟩

/-- Insertion into a sorted list, before the first element not
`le`-below the new one — the stable placement Python's `sorted` uses. -/
def insertIn {α : Type} (le : α → α → Bool) (x : α) : List α → List α
  | [] => [x]
  | y :: ys => if le x y then x :: y :: ys else y :: insertIn le x ys

/-- Python's `sorted` (stable) modelled as insertion sort. -/
def pySorted {α : Type} (le : α → α → Bool) (l : List α) : List α :=
  l.foldr (insertIn le) []

/-! ## Python-dict helpers (insertion-ordered association lists) -/

/-- `d[k] = v` on a Python dict: replace in place if the key exists,
otherwise append at the end (CPython preserves insertion order). -/
def dictInsert {α : Type} (d : List (String × α)) (k : String) (v : α) :
    List (String × α) :=
  if (d.lookup k).isSome then
    d.map (fun p => if p.1 = k then (k, v) else p)
  else
    d ++ [(k, v)]

/-- `del d[k]` on a Python dict. -/
def dictErase {α : Type} (d : List (String × α)) (k : String) :
    List (String × α) :=
  d.filter (fun p => p.1 ≠ k)

/-- `d.update(e)` on a Python dict: insert every pair of `e` in order. -/
def dictUpdate {α : Type} (d e : List (String × α)) : List (String × α) :=
  e.foldl (fun acc p => dictInsert acc p.1 p.2) d

/-! ## config/settings.py -/

/-- Instrument specification record, from `INSTRUMENT_SPECS` entries:
contract_size, point_value, currency, type. -/
structure InstrumentSpec where
  contract_size : Rat
  point_value : Rat
  currency : String
  itype : String
  deriving Repr, DecidableEq

/-- `INSTRUMENT_SPECS` from config/settings.py. -/
def INSTRUMENT_SPECS : List (String × InstrumentSpec) :=
  [ ("DE40", ⟨1, 1, "EUR", "index"⟩),
    ("XAUUSD", ⟨100, 1, "USD", "commodity"⟩),
    ("EURUSD", ⟨100000, 0.0001, "USD", "forex"⟩),
    ("GBPUSD", ⟨100000, 0.0001, "USD", "forex"⟩) ]

/-- `DEFAULT_FX_RATES` from config/settings.py. -/
def DEFAULT_FX_RATES : List (String × Rat) :=
  [ ("EURUSD", 1.10), ("GBPUSD", 1.27), ("USDJPY", 110.0) ]

/-! ## core/pricing_engine.py -/

/-- One M1 OHLC bar (`datetime` modelled as an `Int` minute count). -/
structure Bar where
  ts : Int
  opn : Rat
  high : Rat
  low : Rat
  close : Rat
  deriving Repr, DecidableEq

/-- The engine's `m1_data`: symbol → ordered bar series. -/
def M1Data : Type := List (String × List Bar)

/-- Selecting column `price_type` of an M1 frame; an unknown column name
raises (KeyError inside the `try`, re-raised as ValueError). -/
def fieldSel (price_type : String) : Option (Bar → Rat) :=
  if price_type = "open" then some Bar.opn
  else if price_type = "high" then some Bar.high
  else if price_type = "low" then some Bar.low
  else if price_type = "close" then some Bar.close
  else none

/-- `PricingEngine.get_price_at_time`: as-of lookup (last bar at or before
`timestamp`); if no bar is at or before, the first bar's value; raises
ValueError when the symbol has no series (or the series is empty, where
`iloc[0]` fails inside the broad `try`). -/
def get_price_at_time (m1 : M1Data) (symbol : String) (timestamp : Int)
    (price_type : String) : Except String Rat :=
  match List.lookup symbol m1 with
  | none => .error ("No M1 data for symbol: " ++ symbol)
  | some bars =>
    match fieldSel price_type with
    | none => .error ("Could not get price for " ++ symbol)
    | some f =>
      match (bars.filter (fun b => b.ts ≤ timestamp)).getLast? with
      | some b => .ok (f b)
      | none =>
        match bars.head? with
        | some b0 => .ok (f b0)
        | none => .error ("Could not get price for " ++ symbol)

/-- `PricingEngine.get_fx_rate`: as-of close if the pair has a series,
otherwise `DEFAULT_FX_RATES.get(pair, 1.0)`. -/
def get_fx_rate (m1 : M1Data) (currency_pair : String) (timestamp : Int) :
    Except String Rat :=
  if (List.lookup currency_pair m1).isSome then
    get_price_at_time m1 currency_pair timestamp "close"
  else
    .ok ((DEFAULT_FX_RATES.lookup currency_pair).getD 1.0)

/-- `PricingEngine.convert_to_usd`. -/
def convert_to_usd (m1 : M1Data) (amount : Rat) (currency : String)
    (timestamp : Int) : Except String Rat :=
  if currency = "USD" then
    .ok amount
  else do
    let fx ← get_fx_rate m1 (currency ++ "USD") timestamp
    .ok (amount * fx)

/-- `PricingEngine.get_instrument_specs`: table lookup with the default
`(1, 1, USD, unknown)` fallback. -/
def get_instrument_specs (symbol : String) : InstrumentSpec :=
  (INSTRUMENT_SPECS.lookup symbol).getD ⟨1, 1, "USD", "unknown"⟩

/-! ## utils/helpers.py -/

/-- Round-half-to-even on rationals (the semantics of Python's built-in
`round` at integer precision). -/
def roundHalfEven (q : Rat) : Int :=
  let f := q.floor
  let r := q - (f : Rat)
  if r < 1/2 then f
  else if 1/2 < r then f + 1
  else if f % 2 = 0 then f else f + 1

/-- Python `round(x, 1)` modelled exactly on rationals. -/
def roundTo1 (x : Rat) : Rat :=
  (roundHalfEven (x * 10) : Rat) / 10

/-- `helpers.calculate_risk_amount`: position size in lots from equity and
risk percentage. -/
def calculate_risk_amount (equity risk_pct entry_price sl_price
    contract_size point_value : Rat) : Rat :=
  let risk_amount := equity * (risk_pct / 100)
  let stop_distance := ratAbs (entry_price - sl_price)
  if stop_distance = 0 then 0
  else
    let risk_per_lot := stop_distance * contract_size * point_value
    if risk_per_lot = 0 then 0
    else roundTo1 (risk_amount / risk_per_lot)

/-- Tail of `expanding().max()` given the maximum `m` seen so far. -/
def runningMaxAux (m : Rat) : List Rat → List Rat
  | [] => []
  | e :: es => ratMax2 m e :: runningMaxAux (ratMax2 m e) es

/-- `equity_series.expanding().max()`: running maximum of the series. -/
def runningMaxList : List Rat → List Rat
  | [] => []
  | e :: es => e :: runningMaxAux e es

/-- `helpers.calculate_drawdown_series`:
`(equity_series - running_max) / running_max * 100` elementwise. -/
def calculate_drawdown_series (equity_series : List Rat) : List Rat :=
  List.zipWith (fun e m => (e - m) / m * 100)
    equity_series (runningMaxList equity_series)

/-- One entry of the list returned by `helpers.find_drawdown_periods`. -/
structure DDPeriod where
  start_idx : Nat
  end_idx : Nat
  duration : Nat
  max_dd : Rat
  max_dd_idx : Nat
  deriving Repr, DecidableEq

/-- `series.min()` over a nonempty slice (0 for the empty slice, which the
source never hits). -/
def listMin : List Rat → Rat
  | [] => 0
  | x :: xs => xs.foldl ratMin2 x

/-- `series.idxmin()`: index (position) of the first occurrence of the
minimum. -/
def listIdxmin (l : List Rat) : Nat :=
  (l.findIdx (fun x => x = listMin l))

/-- The period record appended for the run `start_idx .. idx - 1`
(`dd_period = drawdown_series.iloc[start_idx:idx]`). -/
def mkDDPeriod (dd : List Rat) (start_idx idx : Nat) : DDPeriod :=
  let slice := (dd.drop start_idx).take (idx - start_idx)
  { start_idx := start_idx
    end_idx := idx - 1
    duration := idx - start_idx
    max_dd := listMin slice
    max_dd_idx := start_idx + listIdxmin slice }

/-- The `enumerate` loop of `helpers.find_drawdown_periods`: `idx` is the
current position, `rest` the remaining suffix of the full series `dd`
(so `rest = dd.drop idx` at every call), and `start? = some s` exactly
when `in_drawdown` holds with `start_idx = s`. When the series is
exhausted while still in drawdown, the final unterminated period is
appended with `idx = len(dd)`. -/
def fdpGo (dd : List Rat) : Nat → Option Nat → List Rat → List DDPeriod
  | _idx, none, [] => []
  | idx, some s, [] => [mkDDPeriod dd s idx]
  | idx, none, d :: rest =>
    if d < 0 then fdpGo dd (idx + 1) (some idx) rest
    else fdpGo dd (idx + 1) none rest
  | idx, some s, d :: rest =>
    if 0 ≤ d then mkDDPeriod dd s idx :: fdpGo dd (idx + 1) none rest
    else fdpGo dd (idx + 1) (some s) rest

/-- `helpers.find_drawdown_periods`. -/
def find_drawdown_periods (drawdown_series : List Rat) : List DDPeriod :=
  fdpGo drawdown_series 0 none drawdown_series

/-! ## core/position_sizer.py -/

/-- `PositionSizer.calculate_size`. The FX rate is fetched when the
instrument currency is not USD (so a lookup failure propagates) but its
value is never used by the sizing formula, exactly as in the source. -/
def calculate_size (m1 : M1Data) (equity risk_pct : Rat) (symbol : String)
    (entry_price sl_price : Rat) (timestamp : Int) : Except String Rat := do
  let specs := get_instrument_specs symbol
  if specs.currency ≠ "USD" then
    let _ ← get_fx_rate m1 (specs.currency ++ "USD") timestamp
  let lot_size := calculate_risk_amount equity risk_pct entry_price sl_price
    specs.contract_size specs.point_value
  return lot_size

/-- `PositionSizer.calculate_pnl`. -/
def calculate_pnl (m1 : M1Data) (trade_type symbol : String)
    (entry_price exit_price size : Rat) (timestamp : Int) :
    Except String Rat := do
  let specs := get_instrument_specs symbol
  let price_diff :=
    if strLower trade_type = "buy" ∨ strLower trade_type = "buystop" then
      exit_price - entry_price
    else
      entry_price - exit_price
  let pnl := price_diff * size * specs.contract_size * specs.point_value
  if specs.currency ≠ "USD" then
    convert_to_usd m1 pnl specs.currency timestamp
  else
    return pnl

/-! ## core/portfolio_engine.py -/

/-- One row of a per-strategy backtest DataFrame (the columns
`_combine_all_trades` reads). -/
structure TradeRow where
  risk_pct : Rat
  ticket : String
  symbol : String
  ttype : String
  open_time : Int
  close_time : Int
  open_price : Rat
  close_price : Rat
  sl_price : Rat
  size : Rat
  pnl : Rat
  mae : Option Rat
  mfe : Option Rat
  deriving Repr, DecidableEq

/-- One entry of `all_trades` as built by `_combine_all_trades`. -/
structure TradeIn where
  algo_name : String
  risk_pct : Rat
  ticket : String
  symbol : String
  ttype : String
  open_time : Int
  close_time : Int
  open_price : Rat
  close_price : Rat
  sl_price : Rat
  size_original : Rat
  pnl_original : Rat
  mae_original : Option Rat
  mfe_original : Option Rat
  deriving Repr, DecidableEq

/-- An entry of `self.open_positions`. -/
structure Position where
  algo_name : String
  ticket : String
  symbol : String
  ttype : String
  open_time : Int
  open_price : Rat
  sl_price : Rat
  size : Rat
  size_original : Rat
  entry_equity : Rat
  deriving Repr, DecidableEq

/-- An entry of `self.trade_log` (`np.nan` fields of forced closes are
`none`). -/
structure LoggedTrade where
  algo_name : String
  ticket : String
  symbol : String
  ttype : String
  open_time : Int
  close_time : Int
  open_price : Rat
  close_price : Rat
  sl_price : Rat
  size : Rat
  size_original : Rat
  pnl : Rat
  pnl_original : Option Rat
  entry_equity : Rat
  exit_equity : Rat
  risk_pct : Option Rat
  mae_original : Option Rat
  mfe_original : Option Rat
  deriving Repr, DecidableEq

/-- An entry of `self.equity_curve`. -/
structure EquitySample where
  datetime : Int
  equity : Rat
  cash : Rat
  floating_pnl : Rat
  open_positions : Nat
  deriving Repr, DecidableEq

/-- The configuration fields the engine reads. -/
structure EngineConfig where
  portfolio_balance : Rat
  date_start : Int
  date_end : Int
  generate_m1_equity : Bool
  deriving Repr, DecidableEq

/-- The engine's mutable state (`self.cash`, `self.open_positions`,
`self.equity_curve`, `self.trade_log`). -/
structure EngineState where
  cash : Rat
  open_positions : List (String × Position)
  equity_curve : List EquitySample
  trade_log : List LoggedTrade
  deriving Repr, DecidableEq

/-- `PortfolioEngine._combine_all_trades`: flatten all strategies' rows,
then a stable sort by `open_time`. -/
def combine_all_trades (backtest_data : List (String × List TradeRow)) :
    List TradeIn :=
  let all_trades := backtest_data.foldl (fun acc p =>
    acc ++ p.2.map (fun r =>
      { algo_name := p.1, risk_pct := r.risk_pct, ticket := r.ticket,
        symbol := r.symbol, ttype := r.ttype, open_time := r.open_time,
        close_time := r.close_time, open_price := r.open_price,
        close_price := r.close_price, sl_price := r.sl_price,
        size_original := r.size, pnl_original := r.pnl,
        mae_original := r.mae, mfe_original := r.mfe })) []
  pySorted (fun a b => a.open_time ≤ b.open_time) all_trades

/-- `PortfolioEngine._calculate_floating_pnl`: price lookup plus P&L
computation inside a broad `try`; any failure yields 0. -/
def calculate_floating_pnl (m1 : M1Data) (position : Position)
    (timestamp : Int) : Rat :=
  match (do
      let current_price ← get_price_at_time m1 position.symbol timestamp
        "close"
      calculate_pnl m1 position.ttype position.symbol position.open_price
        current_price position.size timestamp) with
  | .ok v => v
  | .error _ => 0

/-- `PortfolioEngine._get_current_equity`: cash plus floating P&L of all
open positions. -/
def get_current_equity (m1 : M1Data) (st : EngineState) (timestamp : Int) :
    Rat :=
  st.open_positions.foldl
    (fun equity p => equity + calculate_floating_pnl m1 p.2 timestamp)
    st.cash

/-- `PortfolioEngine._update_equity_curve`. -/
def update_equity_curve (m1 : M1Data) (st : EngineState) (timestamp : Int) :
    EngineState :=
  let equity := get_current_equity m1 st timestamp
  let total_floating :=
    (st.open_positions.map (fun p => calculate_floating_pnl m1 p.2
      timestamp)).sum
  { st with equity_curve := st.equity_curve ++
      [{ datetime := timestamp, equity := equity, cash := st.cash,
         floating_pnl := total_floating,
         open_positions := st.open_positions.length }] }

/-- One iteration of `_track_position_m1`'s bar loop: compute the tracked
position's floating P&L at the bar (this call is outside any `try`, so
its failure propagates), add the other open positions' floating P&L, and
append one equity sample. -/
def track_bar_step (m1 : M1Data) (position_id : String)
    (position : Position) (s : EngineState) (bar : Bar) :
    Except String EngineState := do
  let floating_pnl ← calculate_pnl m1 position.ttype position.symbol
    position.open_price bar.close position.size bar.ts
  let equity := s.open_positions.foldl
    (fun eq p =>
      if p.1 ≠ position_id then
        eq + calculate_floating_pnl m1 p.2 bar.ts
      else eq)
    (s.cash + floating_pnl)
  .ok { s with equity_curve := s.equity_curve ++
    [{ datetime := bar.ts, equity := equity, cash := s.cash,
       floating_pnl := floating_pnl,
       open_positions := s.open_positions.length }] }

/-- `PortfolioEngine._track_position_m1`: per-bar equity samples between
open and close. -/
def track_position_m1 (m1 : M1Data) (st : EngineState)
    (position_id : String) (trade : TradeIn) : Except String EngineState :=
  match st.open_positions.lookup position_id with
  | none => .error "KeyError: position_id"
  | some position =>
    match List.lookup position.symbol m1 with
    | none => .ok st
    | some m1_df =>
      let m1_bars := m1_df.filter (fun b =>
        trade.open_time < b.ts && b.ts < trade.close_time)
      m1_bars.foldlM (track_bar_step m1 position_id position) st

/-- The position id `f"{algo_name}_{ticket}"`. -/
def position_id_of (trade : TradeIn) : String :=
  trade.algo_name ++ "_" ++ trade.ticket

/-- Insertion of the new open position (`self.open_positions[id] = ...`).
This is the only state change of the opening half of `_process_trade`. -/
def open_position_step (st : EngineState) (pid : String) (pos : Position) :
    EngineState :=
  { st with open_positions := dictInsert st.open_positions pid pos }

/-- The `Position` record `_process_trade` inserts into
`self.open_positions`. -/
def position_of (trade : TradeIn) (current_equity position_size : Rat) :
    Position :=
  { algo_name := trade.algo_name, ticket := trade.ticket,
    symbol := trade.symbol, ttype := trade.ttype,
    open_time := trade.open_time, open_price := trade.open_price,
    sl_price := trade.sl_price, size := position_size,
    size_original := trade.size_original,
    entry_equity := current_equity }

/-- The closing half of `_process_trade` (from `exit_equity` on): compute
the realized P&L at the trade's own close price, add it to cash, append a
trade-log record, remove the open position, and append one equity
sample. -/
def close_trade_step (m1 : M1Data) (st2 : EngineState) (trade : TradeIn)
    (position_id : String) (current_equity position_size : Rat) :
    Except String EngineState := do
  let exit_equity := get_current_equity m1 st2 trade.close_time
  let pnl ← calculate_pnl m1 trade.ttype trade.symbol trade.open_price
    trade.close_price position_size trade.close_time
  let rec_entry : LoggedTrade :=
    { algo_name := trade.algo_name, ticket := trade.ticket,
      symbol := trade.symbol, ttype := trade.ttype,
      open_time := trade.open_time, close_time := trade.close_time,
      open_price := trade.open_price, close_price := trade.close_price,
      sl_price := trade.sl_price, size := position_size,
      size_original := trade.size_original, pnl := pnl,
      pnl_original := some trade.pnl_original,
      entry_equity := current_equity, exit_equity := exit_equity,
      risk_pct := some trade.risk_pct,
      mae_original := trade.mae_original,
      mfe_original := trade.mfe_original }
  let st3 : EngineState :=
    { st2 with cash := st2.cash + pnl,
               trade_log := st2.trade_log ++ [rec_entry],
               open_positions :=
                 if (st2.open_positions.lookup position_id).isSome then
                   dictErase st2.open_positions position_id
                 else st2.open_positions }
  return update_equity_curve m1 st3 trade.close_time

/-- `PortfolioEngine._process_trade`: size from current equity, open the
position, optionally track per-bar equity, then close the position within
the same call. -/
def process_trade (m1 : M1Data) (config : EngineConfig) (st : EngineState)
    (trade : TradeIn) : Except String EngineState := do
  let current_equity := get_current_equity m1 st trade.open_time
  let position_size ← calculate_size m1 current_equity trade.risk_pct
    trade.symbol trade.open_price trade.sl_price trade.open_time
  let position_id := position_id_of trade
  let st1 := open_position_step st position_id
    (position_of trade current_equity position_size)
  let st2 ← if config.generate_m1_equity then
      track_position_m1 m1 st1 position_id trade
    else .ok st1
  close_trade_step m1 st2 trade position_id current_equity position_size

/-- One iteration of `_close_all_positions`' loop over the snapshot of
the open positions: on a successful price lookup and P&L computation the
trade is realized into cash and logged as a forced close; on any failure
the position is logged to the console only; the position is removed from
the open set either way. -/
def close_one_step (m1 : M1Data) (end_date : Int) (s : EngineState)
    (p : String × Position) : EngineState :=
  let position := p.2
  let s1 :=
    match (do
        let close_price ← get_price_at_time m1 position.symbol end_date
          "close"
        let pnl ← calculate_pnl m1 position.ttype position.symbol
          position.open_price close_price position.size end_date
        pure (close_price, pnl) : Except String (Rat × Rat)) with
    | .error _ => s
    | .ok (close_price, pnl) =>
      let new_cash := s.cash + pnl
      let forced_rec : LoggedTrade :=
        { algo_name := position.algo_name, ticket := position.ticket,
          symbol := position.symbol, ttype := position.ttype,
          open_time := position.open_time, close_time := end_date,
          open_price := position.open_price,
          close_price := close_price, sl_price := position.sl_price,
          size := position.size,
          size_original := position.size_original, pnl := pnl,
          pnl_original := none,
          entry_equity := position.entry_equity,
          exit_equity := new_cash, risk_pct := none,
          mae_original := none, mfe_original := none }
      { s with cash := new_cash,
               trade_log := s.trade_log ++ [forced_rec] }
  { s1 with open_positions := dictErase s1.open_positions p.1 }

/-- `PortfolioEngine._close_all_positions`: iterate over a snapshot
(`list(...)`) of the open positions, then append a final equity sample. -/
def close_all_positions (m1 : M1Data) (st : EngineState) (end_date : Int) :
    EngineState :=
  let st' := st.open_positions.foldl (close_one_step m1 end_date) st
  update_equity_curve m1 st' end_date

/-- The `results` dict returned by `PortfolioEngine.run`. -/
structure SimulationResult where
  equity_curve : List EquitySample
  trades : List LoggedTrade
  total_trades : Nat
  starting_balance : Rat
  final_equity : Rat
  deriving Repr, DecidableEq

/-- The initial engine state plus the first equity sample appended by
`run`. -/
def initial_state (config : EngineConfig) : EngineState :=
  { cash := config.portfolio_balance, open_positions := [],
    equity_curve :=
      [{ datetime := config.date_start, equity := config.portfolio_balance,
         cash := config.portfolio_balance, floating_pnl := 0,
         open_positions := 0 }],
    trade_log := [] }

/-- `PortfolioEngine.run`: process every combined trade in order, then
force-close at the end date; a raised exception anywhere aborts the run. -/
def runEngine (m1 : M1Data) (config : EngineConfig)
    (backtest_data : List (String × List TradeRow)) :
    Except String SimulationResult := do
  let all_trades := combine_all_trades backtest_data
  let st1 ← all_trades.foldlM (process_trade m1 config)
    (initial_state config)
  let st2 := close_all_positions m1 st1 config.date_end
  return { equity_curve := st2.equity_curve, trades := st2.trade_log,
           total_trades := st2.trade_log.length,
           starting_balance := config.portfolio_balance,
           final_equity :=
             ((st2.equity_curve.getLast?).map (·.equity)).getD 0 }

/-! ## analytics/attribution.py -/

/-- `Series.unique()`: distinct values in first-occurrence order. -/
def uniqueFirst : List String → List String
  | [] => []
  | a :: l => a :: uniqueFirst (l.filter (fun x => x != a))
  termination_by l => l.length
  decreasing_by
    simp only [List.length_cons]
    exact Nat.lt_succ_of_le (List.length_filter_le _ _)

/-- Mean of a list of rationals; the source only evaluates it on nonempty
lists (pandas would return NaN on an empty one). -/
def ratMean (l : List Rat) : Rat :=
  if l.length = 0 then 0 else l.sum / (l.length : Rat)

/-- `AttributionAnalyzer._calculate_algo_metrics`: the dict of statistics
for one strategy's trades (counts stored as rationals). -/
def calc_algo_metrics (trades : List LoggedTrade) : List (String × Rat) :=
  let total_pnl := (trades.map LoggedTrade.pnl).sum
  let winning_trades := trades.filter (fun t => 0 < t.pnl)
  let losing_trades := trades.filter (fun t => t.pnl < 0)
  let num_trades := trades.length
  let num_wins := winning_trades.length
  let num_losses := losing_trades.length
  let win_rate : Rat :=
    if 0 < num_trades then (num_wins : Rat) / (num_trades : Rat) * 100 else 0
  let avg_win : Rat :=
    if 0 < num_wins then ratMean (winning_trades.map LoggedTrade.pnl) else 0
  let avg_loss : Rat :=
    if 0 < num_losses then ratMean (losing_trades.map LoggedTrade.pnl)
    else 0
  let gross_profit : Rat :=
    if 0 < num_wins then (winning_trades.map LoggedTrade.pnl).sum else 0
  let gross_loss : Rat :=
    if 0 < num_losses then ratAbs (losing_trades.map LoggedTrade.pnl).sum
    else 0
  let profit_factor : Rat :=
    if 0 < gross_loss then gross_profit / gross_loss else 0
  [ ("total_trades", (num_trades : Rat)),
    ("total_pnl", total_pnl),
    ("winning_trades", (num_wins : Rat)),
    ("losing_trades", (num_losses : Rat)),
    ("win_rate", win_rate),
    ("avg_win", avg_win),
    ("avg_loss", avg_loss),
    ("gross_profit", gross_profit),
    ("gross_loss", gross_loss),
    ("profit_factor", profit_factor),
    ("expectancy", ratMean (trades.map LoggedTrade.pnl)) ]

/-- `AttributionAnalyzer.analyze`: group the trade log by `algo_name` and
compute the per-strategy dict. No `contribution_pct` entry is produced
anywhere in the source. -/
def analyze (trades : List LoggedTrade) : List (String × List (String × Rat)) :=
  if trades.length = 0 then []
  else
    (uniqueFirst (trades.map LoggedTrade.algo_name)).map (fun algo_name =>
      (algo_name,
       calc_algo_metrics (trades.filter (fun t => t.algo_name == algo_name))))

/-- Modelled from the spec: the contribution percentage of §4.5
("Contribution percentage = group total_pnl / portfolio total_pnl × 100"),
which no code under src/ computes (reporting reads a `contribution_pct`
key that the attribution analyzer never emits). -/
def spec_contribution_pct (trades : List LoggedTrade) (algo_name : String) :
    Rat :=
  ((trades.filter (fun t => t.algo_name == algo_name)).map
      LoggedTrade.pnl).sum
    / (trades.map LoggedTrade.pnl).sum * 100

/-! ## analytics/metrics.py

`MetricsCalculator` is embedded in the state monad over the
`SimulationResult` it is constructed with, so that the absence of any
mutation of the input is a provable property of the embedding rather
than an assumption. Metric values are `Option Rat` with `none` playing
the role of a float NaN. The two irrational float kernels (`np.sqrt`
and `** (1/years)`) are abstracted as function parameters; every
theorem about the calculator holds for all interpretations of them. -/

/-- Calendar day of an `Int` minute timestamp (`.dt.date`, `.days`). -/
def dateOf (t : Int) : Int := t.fdiv 1440

/-- Civil-calendar month counter (`year * 12 + month`) of a day number
(days since 1970-01-01), used to model pandas `resample('M')` buckets. -/
def civilYM (day : Int) : Int :=
  let z := day + 719468
  let era := z.fdiv 146097
  let doe := z - era * 146097
  let yoe := (doe - doe / 1460 + doe / 36524 - doe / 146096) / 365
  let y := yoe + era * 400
  let doy := doe - (365 * yoe + yoe / 4 - yoe / 100)
  let mp := (5 * doy + 2) / 153
  let m := if mp < 10 then mp + 3 else mp - 9
  (if m ≤ 2 then y + 1 else y) * 12 + m

/-- Calendar month bucket of a minute timestamp. -/
def monthOf (t : Int) : Int := civilYM (dateOf t)

/-- `groupby('date')['equity'].last()`: one equity value per calendar day
(keys sorted ascending, last row of each group). -/
def group_daily_last (samples : List EquitySample) : List Rat :=
  let dates := pySorted (fun a b => a ≤ b)
    ((samples.map (fun s => dateOf s.datetime)).dedup)
  dates.filterMap (fun d =>
    ((samples.filter (fun s => dateOf s.datetime == d)).getLast?).map
      EquitySample.equity)

/-- `Series.pct_change()` on a NaN-free series: NaN first, then
elementwise relative change. -/
def pct_change (l : List Rat) : List (Option Rat) :=
  match l with
  | [] => []
  | _ :: _ =>
    none :: List.zipWith (fun cur prev => some ((cur - prev) / prev))
      l.tail l

/-- `Series.dropna()`. -/
def dropna (l : List (Option Rat)) : List Rat := l.filterMap id

/-- Forward fill (`pad`), as used by `pct_change`'s default fill method. -/
def ffillAux : Option Rat → List (Option Rat) → List (Option Rat)
  | _, [] => []
  | last, v :: vs =>
    match v with
    | some x => some x :: ffillAux (some x) vs
    | none => last :: ffillAux last vs

/-- `Series.pct_change()` on a series that may contain NaNs: values are
forward-filled first (pandas' default `fill_method='pad'`), leading NaNs
stay NaN. -/
def pct_change_pad (l : List (Option Rat)) : List (Option Rat) :=
  match l with
  | [] => []
  | _ :: _ =>
    let p := ffillAux none l
    none :: List.zipWith (fun cur prev =>
      match cur, prev with
      | some a, some b => some ((a - b) / b)
      | _, _ => none) p.tail p

/-- `resample('M')['equity'].last()`: for every calendar month between the
first and last sample (inclusive), the last sample's equity, NaN for
empty months. -/
def month_resample_last (samples : List EquitySample) : List (Option Rat) :=
  let months := samples.map (fun s => monthOf s.datetime)
  match months.min?, months.max? with
  | some lo, some hi =>
    (List.range (hi - lo + 1).toNat).map (fun k =>
      ((samples.filter (fun s => monthOf s.datetime == lo + k)).getLast?).map
        EquitySample.equity)
  | _, _ => []

/-- `Series.mean()` (NaN on an empty series). -/
def pdMean (l : List Rat) : Option Rat :=
  if l.length = 0 then none else some (l.sum / (l.length : Rat))

/-- `l.max()` over a nonempty list (0 for the empty list, which the
guarded call sites never hit). -/
def listMax : List Rat → Rat
  | [] => 0
  | x :: xs => xs.foldl ratMax2 x

/-- `Series.median()` over a nonempty list (0 for the empty list, which
the guarded call sites never hit). -/
def ratMedian (l : List Rat) : Rat :=
  let s := pySorted (fun a b => a ≤ b) l
  let n := s.length
  if n = 0 then 0
  else if n % 2 = 1 then s.getD (n / 2) 0
  else (s.getD (n / 2 - 1) 0 + s.getD (n / 2) 0) / 2

/-- Python `max(periods, key=lambda x: x['duration'])`: first maximal
element. -/
def pyMaxByDuration (x : DDPeriod) (xs : List DDPeriod) : DDPeriod :=
  xs.foldl (fun c p => if c.duration < p.duration then p else c) x

section Metrics

variable (sqrtT : Rat → Rat) (powT : Rat → Rat → Rat)

/-- `Series.std()` (sample standard deviation, ddof=1; NaN when fewer
than two points), with `np.sqrt` abstracted as `sqrtT`. -/
def pdStd (l : List Rat) : Option Rat :=
  if l.length < 2 then none
  else
    let m := l.sum / (l.length : Rat)
    some (sqrtT (((l.map (fun x => (x - m) ^ 2)).sum) / ((l.length : Rat) - 1)))

/-- `MetricsCalculator._calculate_basic_metrics`. -/
def calculate_basic_metrics :
    StateM SimulationResult (List (String × Option Rat)) := do
  let r ← get
  let total_return :=
    (r.final_equity - r.starting_balance) / r.starting_balance * 100
  let start_date := (r.equity_curve.map EquitySample.datetime).min?
  let end_date := (r.equity_curve.map EquitySample.datetime).max?
  let years : Option Rat :=
    match start_date, end_date with
    | some a, some b => some ((((b - a).fdiv 1440 : Int) : Rat) / 365.25)
    | _, _ => none
  let cagr : Rat :=
    match years with
    | some y =>
      if 0 < y then
        (powT (r.final_equity / r.starting_balance) (1 / y) - 1) * 100
      else 0
    | none => 0
  pure [ ("starting_balance", some r.starting_balance),
         ("final_equity", some r.final_equity),
         ("total_return", some total_return),
         ("total_return_pct", some total_return),
         ("cagr", some cagr),
         ("years", years),
         ("start_date", start_date.map (fun t => (t : Rat))),
         ("end_date", end_date.map (fun t => (t : Rat))) ]

/-- `MetricsCalculator._calculate_returns_metrics`. -/
def calculate_returns_metrics :
    StateM SimulationResult (List (String × Option Rat)) := do
  let r ← get
  let daily_returns := dropna (pct_change (group_daily_last r.equity_curve))
  let monthly_returns :=
    dropna (pct_change_pad (month_resample_last r.equity_curve))
  pure [ ("avg_daily_return", (pdMean daily_returns).map (· * 100)),
         ("avg_monthly_return", (pdMean monthly_returns).map (· * 100)),
         ("std_daily_return", (pdStd sqrtT daily_returns).map (· * 100)),
         ("std_monthly_return", (pdStd sqrtT monthly_returns).map (· * 100)),
         ("best_day", daily_returns.max?.map (· * 100)),
         ("worst_day", daily_returns.min?.map (· * 100)),
         ("best_month", monthly_returns.max?.map (· * 100)),
         ("worst_month", monthly_returns.min?.map (· * 100)),
         ("positive_days",
          some ((daily_returns.filter (fun x => 0 < x)).length : Rat)),
         ("negative_days",
          some ((daily_returns.filter (fun x => x < 0)).length : Rat)),
         ("positive_months",
          some ((monthly_returns.filter (fun x => 0 < x)).length : Rat)),
         ("negative_months",
          some ((monthly_returns.filter (fun x => x < 0)).length : Rat)) ]

/-- `MetricsCalculator._calculate_risk_metrics`. -/
def calculate_risk_metrics :
    StateM SimulationResult (List (String × Option Rat)) := do
  let r ← get
  let daily_equity := group_daily_last r.equity_curve
  let dd_series := calculate_drawdown_series daily_equity
  let max_dd := dd_series.min?
  let dd_periods := find_drawdown_periods dd_series
  let longest_dd_days : Rat :=
    match dd_periods with
    | [] => 0
    | p :: ps => ((pyMaxByDuration p ps).duration : Rat)
  let avg_dd_duration : Rat :=
    match dd_periods with
    | [] => 0
    | _ => ratMean (dd_periods.map (fun p => (p.duration : Rat)))
  let daily_returns := dropna (pct_change daily_equity)
  pure [ ("max_drawdown", max_dd),
         ("max_drawdown_pct", max_dd),
         ("longest_dd_days", some longest_dd_days),
         ("avg_dd_duration", some avg_dd_duration),
         ("num_dd_periods", some (dd_periods.length : Rat)),
         ("annual_volatility",
          (pdStd sqrtT daily_returns).map (fun s => s * sqrtT 252 * 100)) ]

/-- `MetricsCalculator._calculate_trade_metrics`. -/
def calculate_trade_metrics :
    StateM SimulationResult (List (String × Option Rat)) := do
  let r ← get
  pure (
    if r.trades.length = 0 then
      [ ("total_trades", some 0), ("winning_trades", some 0),
        ("losing_trades", some 0), ("win_rate", some 0),
        ("avg_win", some 0), ("avg_loss", some 0),
        ("largest_win", some 0), ("largest_loss", some 0),
        ("profit_factor", some 0), ("expectancy", some 0) ]
    else
      let trades := r.trades
      let winning_trades := trades.filter (fun t => 0 < t.pnl)
      let losing_trades := trades.filter (fun t => t.pnl < 0)
      let total_trades := trades.length
      let num_wins := winning_trades.length
      let num_losses := losing_trades.length
      let win_rate : Rat :=
        if 0 < total_trades then
          (num_wins : Rat) / (total_trades : Rat) * 100
        else 0
      let avg_win : Rat :=
        if 0 < num_wins then ratMean (winning_trades.map LoggedTrade.pnl)
        else 0
      let avg_loss : Rat :=
        if 0 < num_losses then ratMean (losing_trades.map LoggedTrade.pnl)
        else 0
      let largest_win : Rat :=
        if 0 < num_wins then listMax (winning_trades.map LoggedTrade.pnl)
        else 0
      let largest_loss : Rat :=
        if 0 < num_losses then listMin (losing_trades.map LoggedTrade.pnl)
        else 0
      let gross_profit : Rat :=
        if 0 < num_wins then (winning_trades.map LoggedTrade.pnl).sum
        else 0
      let gross_loss : Rat :=
        if 0 < num_losses then
          ratAbs (losing_trades.map LoggedTrade.pnl).sum
        else 0
      let profit_factor : Rat :=
        if 0 < gross_loss then gross_profit / gross_loss else 0
      [ ("total_trades", some (total_trades : Rat)),
        ("winning_trades", some (num_wins : Rat)),
        ("losing_trades", some (num_losses : Rat)),
        ("win_rate", some win_rate),
        ("avg_win", some avg_win),
        ("avg_loss", some avg_loss),
        ("largest_win", some largest_win),
        ("largest_loss", some largest_loss),
        ("gross_profit", some gross_profit),
        ("gross_loss", some gross_loss),
        ("profit_factor", some profit_factor),
        ("expectancy", some (ratMean (trades.map LoggedTrade.pnl))),
        ("avg_trade", some (ratMean (trades.map LoggedTrade.pnl))),
        ("median_trade", some (ratMedian (trades.map LoggedTrade.pnl))) ])

/-- `MetricsCalculator._calculate_drawdown_metrics`. -/
def calculate_drawdown_metrics :
    StateM SimulationResult (List (String × Option Rat)) := do
  let r ← get
  pure (
    let daily_equity := group_daily_last r.equity_curve
    let dd_series := calculate_drawdown_series daily_equity
    let dd_periods := find_drawdown_periods dd_series
    match dd_periods with
    | [] =>
      [ ("max_dd_duration", some 0), ("avg_dd_depth", some 0),
        ("recovery_factor", some 0) ]
    | _ =>
      let max_dd_duration : Rat :=
        listMax (dd_periods.map (fun p => (p.duration : Rat)))
      let avg_dd_depth := ratMean (dd_periods.map (fun p => ratAbs p.max_dd))
      let net_profit := r.final_equity - r.starting_balance
      let max_dd_dollars :=
        ratAbs ((dd_series.min?.getD 0) / 100 * r.starting_balance)
      let recovery_factor : Rat :=
        if 0 < max_dd_dollars then net_profit / max_dd_dollars else 0
      [ ("max_dd_duration", some max_dd_duration),
        ("avg_dd_depth", some avg_dd_depth),
        ("recovery_factor", some recovery_factor) ])

/-- `MetricsCalculator._calculate_risk_adjusted_metrics`. -/
def calculate_risk_adjusted_metrics :
    StateM SimulationResult (List (String × Option Rat)) := do
  let r ← get
  pure (
    let daily_equity := group_daily_last r.equity_curve
    let daily_returns := dropna (pct_change daily_equity)
    if daily_returns.length = 0 then
      [ ("sharpe_ratio", some 0), ("sortino_ratio", some 0),
        ("calmar_ratio", some 0) ]
    else
      let avg_return := daily_returns.sum / (daily_returns.length : Rat)
      let sharpe : Rat :=
        match pdStd sqrtT daily_returns with
        | some s => if 0 < s then avg_return / s * sqrtT 252 else 0
        | none => 0
      let downside_returns := daily_returns.filter (fun x => x < 0)
      let sortino : Rat :=
        match pdStd sqrtT downside_returns with
        | some s => if 0 < s then avg_return / s * sqrtT 252 else 0
        | none => 0
      let dates := pySorted (fun a b => a ≤ b)
        ((r.equity_curve.map (fun s => dateOf s.datetime)).dedup)
      let years : Rat :=
        match dates.min?, dates.max? with
        | some a, some b => ((b - a : Int) : Rat) / 365.25
        | _, _ => 0
      let cagr : Rat :=
        if 0 < years then
          (powT (r.final_equity / r.starting_balance) (1 / years) - 1) *
            100
        else 0
      let max_dd :=
        ratAbs ((calculate_drawdown_series daily_equity).min?.getD 0)
      let calmar : Rat := if 0 < max_dd then cagr / max_dd else 0
      [ ("sharpe_ratio", some sharpe),
        ("sortino_ratio", some sortino),
        ("calmar_ratio", some calmar) ])

/-- `MetricsCalculator.calculate_all`: the union (`dict.update`) of all
six metric groups. -/
def calculate_all :
    StateM SimulationResult (List (String × Option Rat)) := do
  let basic ← calculate_basic_metrics powT
  let returns ← calculate_returns_metrics sqrtT
  let risk ← calculate_risk_metrics sqrtT
  let trade ← calculate_trade_metrics
  let ddm ← calculate_drawdown_metrics
  let radj ← calculate_risk_adjusted_metrics sqrtT powT
  let metrics := dictUpdate [] basic
  let metrics := dictUpdate metrics returns
  let metrics := dictUpdate metrics risk
  let metrics := dictUpdate metrics trade
  let metrics := dictUpdate metrics ddm
  pure (dictUpdate metrics radj)

end Metrics

/-! ## Specification-side definitions for the drawdown claims -/

/-- The spec's `running_max(equity[0..i])`: the maximum of the first
`i + 1` equity values. -/
def spec_running_max (es : List Rat) (i : Nat) : Rat :=
  match es.take (i + 1) with
  | [] => 0
  | h :: t => t.foldl ratMax2 h

/-- What it means for a period record to describe a maximal contiguous
run of strictly negative drawdown, carrying the run's duration and its
minimum (deepest) drawdown. -/
def PeriodSound (dd : List Rat) (p : DDPeriod) : Prop :=
  p.start_idx ≤ p.end_idx ∧ p.end_idx < dd.length ∧
  (∀ i, p.start_idx ≤ i → i ≤ p.end_idx → dd.getD i 0 < 0) ∧
  (p.start_idx = 0 ∨ 0 ≤ dd.getD (p.start_idx - 1) 0) ∧
  (p.end_idx = dd.length - 1 ∨ 0 ≤ dd.getD (p.end_idx + 1) 0) ∧
  p.duration = p.end_idx - p.start_idx + 1 ∧
  (∀ i, p.start_idx ≤ i → i ≤ p.end_idx → p.max_dd ≤ dd.getD i 0) ∧
  (∃ i, p.start_idx ≤ i ∧ i ≤ p.end_idx ∧ dd.getD i 0 = p.max_dd)

/-! ## Concrete inputs used by counterexamples and witnesses -/

/-- Price series for XAUUSD: 1000 at t=0, 1050 at t=50, 1100 at t=100. -/
def m1X : M1Data :=
  [("XAUUSD",
    [⟨0, 1000, 1000, 1000, 1000⟩, ⟨50, 1050, 1050, 1050, 1050⟩,
     ⟨100, 1100, 1100, 1100, 1100⟩])]

/-- A $100,000 account over the horizon 0 .. 200 minutes, without
fine-grained M1 tracking. -/
def cfgX : EngineConfig := ⟨100000, 0, 200, false⟩

/-- Strategy A's trade: Buy XAUUSD at 1000 (t=0), close at 1100 (t=100),
stop 990, risk 1% — profitable while open. -/
def rowA : TradeRow :=
  { risk_pct := 1, ticket := "1", symbol := "XAUUSD", ttype := "Buy",
    open_time := 0, close_time := 100, open_price := 1000,
    close_price := 1100, sl_price := 990, size := 1, pnl := 10000,
    mae := none, mfe := none }

/-- Strategy B's trade: opens at t=50 while A's trade is still open
(A closes at t=100). -/
def rowB : TradeRow :=
  { risk_pct := 1, ticket := "1", symbol := "XAUUSD", ttype := "Buy",
    open_time := 50, close_time := 60, open_price := 1050,
    close_price := 1060, sl_price := 1040, size := 1, pnl := 1000,
    mae := none, mfe := none }

/-- Strategy A's trade as a combined-stream entry. -/
def tA : TradeIn :=
  { algo_name := "A", risk_pct := 1, ticket := "1", symbol := "XAUUSD",
    ttype := "Buy", open_time := 0, close_time := 100,
    open_price := 1000, close_price := 1100, sl_price := 990,
    size_original := 1, pnl_original := 10000, mae_original := none,
    mfe_original := none }

/-- The open position A's trade creates (size 1 lot at entry equity
100000, matching the engine's own first trade-log record). -/
def posA : Position :=
  { algo_name := "A", ticket := "1", symbol := "XAUUSD", ttype := "Buy",
    open_time := 0, open_price := 1000, sl_price := 990, size := 1,
    size_original := 1, entry_equity := 100000 }

/-- The result of the two-strategy replay of `rowA` and `rowB`. -/
def C1result : SimulationResult :=
  match runEngine m1X cfgX [("A", [rowA]), ("B", [rowB])] with
  | .ok r => r
  | .error _ => ⟨[], [], 0, 0, 0⟩

/-- An open position on a symbol with no price series. -/
def posC2 : Position :=
  { algo_name := "A", ticket := "1", symbol := "XAUUSD", ttype := "Buy",
    open_time := 0, open_price := 1000, sl_price := 990, size := 1,
    size_original := 1, entry_equity := 100000 }

/-- The engine state after processing A's trade from the initial state. -/
def stAfterA : EngineState :=
  match process_trade m1X cfgX (initial_state cfgX) tA with
  | .ok s => s
  | .error _ => initial_state cfgX

/-- A one-trade closed-trade log (strategy "A", P&L 100). -/
def tC8 : LoggedTrade :=
  { algo_name := "A", ticket := "1", symbol := "XAUUSD", ttype := "Buy",
    open_time := 0, close_time := 10, open_price := 100,
    close_price := 101, sl_price := 99, size := 1, size_original := 1,
    pnl := 100, pnl_original := some 100, entry_equity := 100000,
    exit_equity := 100100, risk_pct := some 1, mae_original := none,
    mfe_original := none }

/-! ## Theorems -/

/-- `_update_equity_curve` only appends an equity sample: cash is
untouched. -/
theorem update_equity_curve_cash (m1 : M1Data) (st : EngineState)
    (t : Int) : (update_equity_curve m1 st t).cash = st.cash := rfl

/-- `_update_equity_curve` leaves the trade log untouched. -/
theorem update_equity_curve_log (m1 : M1Data) (st : EngineState)
    (t : Int) : (update_equity_curve m1 st t).trade_log = st.trade_log :=
  rfl

/-- `_update_equity_curve` leaves the open-position set untouched. -/
theorem update_equity_curve_open (m1 : M1Data) (st : EngineState)
    (t : Int) :
    (update_equity_curve m1 st t).open_positions = st.open_positions := rfl

/-- A successful per-bar tracking step only appends equity samples. -/
theorem track_bar_step_preserves {m1 : M1Data} {pid : String}
    {pos : Position} {s : EngineState} {bar : Bar} {s2 : EngineState}
    (h : track_bar_step m1 pid pos s bar = .ok s2) :
    s2.open_positions = s.open_positions ∧ s2.cash = s.cash ∧
    s2.trade_log = s.trade_log := by
  unfold track_bar_step at h
  cases hp : calculate_pnl m1 pos.ttype pos.symbol pos.open_price bar.close
      pos.size bar.ts with
  | error e =>
    rw [hp] at h
    simp only [Bind.bind, Except.bind] at h
    exact absurd h (by simp)
  | ok v =>
    rw [hp] at h
    simp only [Bind.bind, Except.bind, Except.ok.injEq] at h
    subst h
    exact ⟨rfl, rfl, rfl⟩

/-- The whole per-bar tracking loop only appends equity samples. -/
theorem trackFold_preserves {m1 : M1Data} {pid : String} {pos : Position} :
    ∀ (bars : List Bar) (s s2 : EngineState),
      List.foldlM (track_bar_step m1 pid pos) s bars = .ok s2 →
      s2.open_positions = s.open_positions ∧ s2.cash = s.cash ∧
      s2.trade_log = s.trade_log := by
  intro bars
  induction bars with
  | nil =>
    intro s s2 h
    simp only [List.foldlM_nil, pure, Except.pure, Except.ok.injEq] at h
    subst h
    exact ⟨rfl, rfl, rfl⟩
  | cons b bs ih =>
    intro s s2 h
    rw [List.foldlM_cons] at h
    cases hs : track_bar_step m1 pid pos s b with
    | error e =>
      rw [hs] at h
      simp only [Bind.bind, Except.bind] at h
      exact absurd h (by simp)
    | ok s1 =>
      rw [hs] at h
      simp only [Bind.bind, Except.bind] at h
      obtain ⟨h1, h2, h3⟩ := ih s1 s2 h
      obtain ⟨g1, g2, g3⟩ := track_bar_step_preserves hs
      exact ⟨h1.trans g1, h2.trans g2, h3.trans g3⟩

/-- `_track_position_m1` only appends equity samples: the open-position
set, cash and trade log are unchanged. -/
theorem track_preserves {m1 : M1Data} {st : EngineState} {pid : String}
    {trade : TradeIn} {st2 : EngineState}
    (h : track_position_m1 m1 st pid trade = .ok st2) :
    st2.open_positions = st.open_positions ∧ st2.cash = st.cash ∧
    st2.trade_log = st.trade_log := by
  unfold track_position_m1 at h
  split at h
  · exact absurd h (by simp)
  · split at h
    · simp only [Except.ok.injEq] at h
      subst h
      exact ⟨rfl, rfl, rfl⟩
    · exact trackFold_preserves _ _ _ h

/-- What a successful closing half of `_process_trade` does: exactly one
trade-log record is appended, its realized P&L is added to cash (and
nothing else changes cash), and the position is removed. -/
theorem close_trade_step_spec {m1 : M1Data} {s : EngineState}
    {trade : TradeIn} {pid : String} {ceq ps : Rat} {s2 : EngineState}
    (h : close_trade_step m1 s trade pid ceq ps = .ok s2) :
    ∃ rec : LoggedTrade,
      s2.trade_log = s.trade_log ++ [rec] ∧
      s2.cash = s.cash + rec.pnl ∧
      s2.open_positions =
        (if (s.open_positions.lookup pid).isSome then
          dictErase s.open_positions pid
        else s.open_positions) := by
  unfold close_trade_step at h
  cases hp : calculate_pnl m1 trade.ttype trade.symbol trade.open_price
      trade.close_price ps trade.close_time with
  | error e =>
    rw [hp] at h
    simp only [Bind.bind, Except.bind] at h
    exact absurd h (by simp)
  | ok pnl =>
    rw [hp] at h
    simp only [Bind.bind, Except.bind, pure, Except.pure,
      Except.ok.injEq] at h
    subst h
    exact ⟨_, rfl, rfl, rfl⟩

/-- Anatomy of a successful `_process_trade` call: a position size is
computed, the position is inserted, optional tracking changes neither the
open set nor cash nor the log, and the closing half runs on that state. -/
theorem process_trade_anatomy {m1 : M1Data} {config : EngineConfig}
    {st : EngineState} {trade : TradeIn} {st2 : EngineState}
    (h : process_trade m1 config st trade = .ok st2) :
    ∃ (ps : Rat) (stMid : EngineState),
      stMid.open_positions =
        dictInsert st.open_positions (position_id_of trade)
          (position_of trade (get_current_equity m1 st trade.open_time)
            ps) ∧
      stMid.cash = st.cash ∧ stMid.trade_log = st.trade_log ∧
      close_trade_step m1 stMid trade (position_id_of trade)
        (get_current_equity m1 st trade.open_time) ps = .ok st2 := by
  unfold process_trade at h
  simp only [Bind.bind, Except.bind] at h
  cases hsize : calculate_size m1 (get_current_equity m1 st trade.open_time)
      trade.risk_pct trade.symbol trade.open_price trade.sl_price
      trade.open_time with
  | error e =>
    rw [hsize] at h
    exact absurd h (by simp)
  | ok ps =>
    rw [hsize] at h
    simp only [] at h
    cases hcfg : config.generate_m1_equity with
    | false =>
      rw [hcfg] at h
      simp only [Bool.false_eq_true, if_false] at h
      exact ⟨ps, open_position_step st (position_id_of trade)
        (position_of trade (get_current_equity m1 st trade.open_time) ps),
        rfl, rfl, rfl, h⟩
    | true =>
      rw [hcfg] at h
      simp only [if_true] at h
      cases htr : track_position_m1 m1
          (open_position_step st (position_id_of trade)
            (position_of trade (get_current_equity m1 st trade.open_time)
              ps))
          (position_id_of trade) trade with
      | error e =>
        rw [htr] at h
        exact absurd h (by simp)
      | ok stMid =>
        rw [htr] at h
        obtain ⟨h1, h2, h3⟩ := track_preserves htr
        exact ⟨ps, stMid, by rw [h1]; rfl, h2, h3, h⟩

/-- A successful `_process_trade` appends exactly one trade-log record
and changes cash by exactly that record's realized P&L. -/
theorem process_trade_cash_log {m1 : M1Data} {config : EngineConfig}
    {st : EngineState} {trade : TradeIn} {st2 : EngineState}
    (h : process_trade m1 config st trade = .ok st2) :
    ∃ rec : LoggedTrade, st2.trade_log = st.trade_log ++ [rec] ∧
      st2.cash = st.cash + rec.pnl := by
  obtain ⟨ps, stMid, ho, hc, hl, hcl⟩ := process_trade_anatomy h
  obtain ⟨rec, h1, h2, h3⟩ := close_trade_step_spec hcl
  exact ⟨rec, by rw [h1, hl], by rw [h2, hc]⟩

/-- A successful `_process_trade` run from an empty open set leaves the
open set empty. -/
theorem process_trade_open_empty {m1 : M1Data} {config : EngineConfig}
    {st : EngineState} {trade : TradeIn} {st2 : EngineState}
    (hopen : st.open_positions = [])
    (h : process_trade m1 config st trade = .ok st2) :
    st2.open_positions = [] := by
  obtain ⟨ps, stMid, ho, hc, hl, hcl⟩ := process_trade_anatomy h
  obtain ⟨rec, h1, h2, h3⟩ := close_trade_step_spec hcl
  rw [h3, ho, hopen]
  simp [dictInsert, dictErase]

/-- Folding `_process_trade` over any trade list preserves emptiness of
the open-position set. -/
theorem processFold_open_empty (m1 : M1Data) (config : EngineConfig) :
    ∀ (trades : List TradeIn) (st st2 : EngineState),
      st.open_positions = [] →
      trades.foldlM (process_trade m1 config) st = .ok st2 →
      st2.open_positions = [] := by
  intro trades
  induction trades with
  | nil =>
    intro st st2 h0 h
    simp only [List.foldlM_nil, pure, Except.pure, Except.ok.injEq] at h
    subst h
    exact h0
  | cons tr trs ih =>
    intro st st2 h0 h
    rw [List.foldlM_cons] at h
    cases hp : process_trade m1 config st tr with
    | error e =>
      rw [hp] at h
      simp only [Bind.bind, Except.bind] at h
      exact absurd h (by simp)
    | ok s1 =>
      rw [hp] at h
      simp only [Bind.bind, Except.bind] at h
      exact ih s1 st2 (process_trade_open_empty h0 hp) h

/-- Folding `_process_trade` over any trade list appends exactly the
records it logs and changes cash by exactly the sum of their realized
P&L. -/
theorem processFold_cash_log (m1 : M1Data) (config : EngineConfig) :
    ∀ (trades : List TradeIn) (st st2 : EngineState),
      trades.foldlM (process_trade m1 config) st = .ok st2 →
      ∃ new : List LoggedTrade, st2.trade_log = st.trade_log ++ new ∧
        st2.cash = st.cash + (new.map LoggedTrade.pnl).sum := by
  intro trades
  induction trades with
  | nil =>
    intro st st2 h
    simp only [List.foldlM_nil, pure, Except.pure, Except.ok.injEq] at h
    subst h
    exact ⟨[], by simp, by simp⟩
  | cons tr trs ih =>
    intro st st2 h
    rw [List.foldlM_cons] at h
    cases hp : process_trade m1 config st tr with
    | error e =>
      rw [hp] at h
      simp only [Bind.bind, Except.bind] at h
      exact absurd h (by simp)
    | ok s1 =>
      rw [hp] at h
      simp only [Bind.bind, Except.bind] at h
      obtain ⟨rec, hl1, hc1⟩ := process_trade_cash_log hp
      obtain ⟨new, hl2, hc2⟩ := ih s1 st2 h
      refine ⟨rec :: new, ?_, ?_⟩
      · rw [hl2, hl1, List.append_assoc]
        simp
      · rw [hc2, hc1]
        simp [add_assoc]

/-- One forced-close iteration appends zero or one records and changes
cash by exactly the appended records' P&L. -/
theorem close_one_step_spec (m1 : M1Data) (t : Int) (s : EngineState)
    (p : String × Position) :
    ∃ new : List LoggedTrade,
      (close_one_step m1 t s p).trade_log = s.trade_log ++ new ∧
      (close_one_step m1 t s p).cash =
        s.cash + (new.map LoggedTrade.pnl).sum := by
  unfold close_one_step
  simp only []
  split
  · exact ⟨[], by simp, by simp⟩
  · exact ⟨_, rfl, by simp⟩

/-- The forced-close loop appends exactly the records it logs and changes
cash by exactly the sum of their P&L. -/
theorem closeFold_spec (m1 : M1Data) (t : Int) :
    ∀ (ps : List (String × Position)) (s : EngineState),
      ∃ new : List LoggedTrade,
        (ps.foldl (close_one_step m1 t) s).trade_log =
          s.trade_log ++ new ∧
        (ps.foldl (close_one_step m1 t) s).cash =
          s.cash + (new.map LoggedTrade.pnl).sum := by
  intro ps
  induction ps with
  | nil => intro s; exact ⟨[], by simp, by simp⟩
  | cons p ps ih =>
    intro s
    obtain ⟨n1, h1, h2⟩ := close_one_step_spec m1 t s p
    obtain ⟨n2, h3, h4⟩ := ih (close_one_step m1 t s p)
    refine ⟨n1 ++ n2, ?_, ?_⟩
    · rw [List.foldl_cons, h3, h1, List.append_assoc]
    · rw [List.foldl_cons, h4, h2, List.map_append, List.sum_append,
        add_assoc]

/-- `_close_all_positions` appends exactly the forced-close records it
logs and changes cash by exactly the sum of their P&L. -/
theorem close_all_spec (m1 : M1Data) (st : EngineState) (t : Int) :
    ∃ new : List LoggedTrade,
      (close_all_positions m1 st t).trade_log = st.trade_log ++ new ∧
      (close_all_positions m1 st t).cash =
        st.cash + (new.map LoggedTrade.pnl).sum := by
  obtain ⟨new, h1, h2⟩ := closeFold_spec m1 t st.open_positions st
  exact ⟨new, h1, h2⟩

/-- `_close_all_positions` on an empty open set only appends the final
equity sample. -/
theorem close_all_empty {m1 : M1Data} {st : EngineState} {t : Int}
    (h : st.open_positions = []) :
    (close_all_positions m1 st t).trade_log = st.trade_log ∧
    (close_all_positions m1 st t).cash = st.cash ∧
    (close_all_positions m1 st t).open_positions = [] := by
  unfold close_all_positions
  rw [h]
  exact ⟨rfl, rfl, h⟩


/-- C5: for every equity, risk_pct, entry, stop, contract size and point
value, position sizing returns
`round((equity × risk_pct/100) / (|entry − stop| × contract_size ×
point_value), 1 decimal)`, and returns 0 when the stop distance or the
risk per unit is zero; equity=100000, risk_pct=1, entry=100, stop=99,
contract_size=1, point_value=1 yields 1000.0 lots, and stop=entry yields
0 lots. -/
theorem C5_sizing_formula :
    (∀ equity risk_pct entry_price sl_price contract_size point_value : Rat,
      ((ratAbs (entry_price - sl_price) = 0 ∨
        ratAbs (entry_price - sl_price) * contract_size * point_value = 0) →
        calculate_risk_amount equity risk_pct entry_price sl_price
          contract_size point_value = 0) ∧
      (ratAbs (entry_price - sl_price) * contract_size * point_value ≠ 0 →
        calculate_risk_amount equity risk_pct entry_price sl_price
          contract_size point_value =
        roundTo1 (equity * (risk_pct / 100) /
          (ratAbs (entry_price - sl_price) * contract_size * point_value))))
    ∧ calculate_risk_amount 100000 1 100 99 1 1 = 1000
    ∧ calculate_risk_amount 100000 1 100 100 1 1 = 0 := by
  refine ⟨fun equity risk_pct entry_price sl_price c p => ⟨?_, ?_⟩,
    by with_unfolding_all rfl, by with_unfolding_all rfl⟩
  · rintro (h0 | h0)
    · simp [calculate_risk_amount, h0]
    · by_cases hd : ratAbs (entry_price - sl_price) = 0
      · simp [calculate_risk_amount, hd]
      · simp [calculate_risk_amount, hd, h0]
  · intro hne
    have hd : ratAbs (entry_price - sl_price) ≠ 0 := by
      intro h; exact hne (by rw [h]; ring)
    simp [calculate_risk_amount, hd, hne]

/-- C5 witness: the sizing formula instantiated at the spec's own
example (nonzero risk per unit). -/
theorem C5_sizing_formula_witness :
    ratAbs ((100 : Rat) - 99) * 1 * 1 ≠ 0 ∧
    calculate_risk_amount 100000 1 100 99 1 1 =
      roundTo1 (100000 * ((1 : Rat) / 100) /
        (ratAbs ((100 : Rat) - 99) * 1 * 1)) :=
  ⟨by with_unfolding_all decide,
   (C5_sizing_formula.1 100000 1 100 99 1 1).2 (by with_unfolding_all decide)⟩

/-- C4 counterexample: a pair with neither a price series nor a
default-table entry does not fail — `get_fx_rate` falls back to 1.0,
contradicting "fails with PriceUnavailable if and only if the pair has
neither a price series nor a default-table entry". -/
theorem C4_fx_rate_counterexample :
    List.lookup "AUDUSD" ([] : M1Data) = none ∧
    DEFAULT_FX_RATES.lookup "AUDUSD" = none ∧
    get_fx_rate [] "AUDUSD" 0 = .ok 1 :=
  ⟨rfl, rfl, by with_unfolding_all rfl⟩

/-- C4 (amended): `fx_rate` returns the pair's as-of close price when the
pair has a price series, otherwise the static default-rate table entry
when present, otherwise the fallback rate 1.0; a missing pair never
fails. -/
theorem C4_fx_rate_amended :
    ∀ (m1 : M1Data) (pair : String) (t : Int),
      ((List.lookup pair m1).isSome →
        get_fx_rate m1 pair t = get_price_at_time m1 pair t "close") ∧
      (List.lookup pair m1 = none →
        get_fx_rate m1 pair t =
          .ok ((DEFAULT_FX_RATES.lookup pair).getD 1.0)) := by
  intro m1 pair t
  constructor
  · intro h
    simp [get_fx_rate, h]
  · intro h
    simp [get_fx_rate, h]

/-- C4 witness: a pair without a series resolves through the default
table. -/
theorem C4_fx_rate_amended_witness :
    List.lookup "EURUSD" ([] : M1Data) = none ∧
    get_fx_rate [] "EURUSD" 0 = .ok 1.10 :=
  ⟨rfl, (C4_fx_rate_amended [] "EURUSD" 0).2 rfl⟩

/-- C6: for a USD instrument the P&L of a Sell trade is the negation of
the P&L of a Buy trade with the same inputs, each equal to
`price_diff × lots × contract_size × point_value`; Buy entry=100,
exit=110, lots=1, contract_size=100, point_value=1 gives 1000 and Sell
gives −1000. -/
theorem C6_pnl_buy_sell_negation :
    (∀ (m1 : M1Data) (symbol : String) (entry exitp lots : Rat) (t : Int),
      (get_instrument_specs symbol).currency = "USD" →
        calculate_pnl m1 "Buy" symbol entry exitp lots t =
          .ok ((exitp - entry) * lots *
            (get_instrument_specs symbol).contract_size *
            (get_instrument_specs symbol).point_value) ∧
        calculate_pnl m1 "Sell" symbol entry exitp lots t =
          .ok ((entry - exitp) * lots *
            (get_instrument_specs symbol).contract_size *
            (get_instrument_specs symbol).point_value) ∧
        calculate_pnl m1 "Sell" symbol entry exitp lots t =
          .ok (-((exitp - entry) * lots *
            (get_instrument_specs symbol).contract_size *
            (get_instrument_specs symbol).point_value)))
    ∧ calculate_pnl [] "Buy" "XAUUSD" 100 110 1 0 = .ok 1000
    ∧ calculate_pnl [] "Sell" "XAUUSD" 100 110 1 0 = .ok (-1000) := by
  have hb : (strLower "Buy" = "buy" ∨ strLower "Buy" = "buystop") :=
    Or.inl (by with_unfolding_all rfl)
  have hs : ¬ (strLower "Sell" = "buy" ∨ strLower "Sell" = "buystop") := by
    with_unfolding_all decide
  refine ⟨fun m1 symbol entry exitp lots t h => ⟨?_, ?_, ?_⟩,
    by with_unfolding_all rfl, by with_unfolding_all rfl⟩
  · simp [calculate_pnl, h, hb]
    rfl
  · simp [calculate_pnl, h, hs]
    rfl
  · have h2 : calculate_pnl m1 "Sell" symbol entry exitp lots t =
        .ok ((entry - exitp) * lots *
          (get_instrument_specs symbol).contract_size *
          (get_instrument_specs symbol).point_value) := by
      simp [calculate_pnl, h, hs]
      rfl
    rw [h2]
    congr 1
    ring

/-- C6 witness: the general Buy/Sell relation instantiated at XAUUSD
(contract size 100, point value 1, USD). -/
theorem C6_pnl_buy_sell_negation_witness :
    calculate_pnl [] "Sell" "XAUUSD" 5 3 2 0 =
      .ok (-(((3 : Rat) - 5) * 2 *
        (get_instrument_specs "XAUUSD").contract_size *
        (get_instrument_specs "XAUUSD").point_value)) :=
  (C6_pnl_buy_sell_negation.1 [] "XAUUSD" 5 3 2 0 rfl).2.2

/-- C2 counterexample: when an open position's symbol has no price
series, `_calculate_floating_pnl` does not raise — the broad
`except: return 0` substitutes a floating P&L of 0 — and a whole replay
over that symbol completes rather than aborting. -/
theorem C2_floating_pnl_counterexample :
    get_price_at_time [] "XAUUSD" 50 "close" =
      .error "No M1 data for symbol: XAUUSD" ∧
    calculate_floating_pnl [] posC2 50 = 0 ∧
    (runEngine [] cfgX [("A", [rowA])]).toOption.isSome = true :=
  ⟨rfl, by with_unfolding_all rfl, by with_unfolding_all rfl⟩

/-- C2 (amended): a price-lookup failure during normal (non-forced)
marking is caught inside `_calculate_floating_pnl`, which returns a
substitute floating P&L of 0; the failure does not propagate and does
not abort the replay. -/
theorem C2_floating_pnl_amended :
    ∀ (m1 : M1Data) (position : Position) (t : Int) (msg : String),
      get_price_at_time m1 position.symbol t "close" = .error msg →
      calculate_floating_pnl m1 position t = 0 := by
  intro m1 position t msg h
  unfold calculate_floating_pnl
  rw [h]
  rfl

/-- C2 witness: the amended marking behaviour at a concrete position
whose symbol has no series. -/
theorem C2_floating_pnl_amended_witness :
    calculate_floating_pnl [] posC2 50 = 0 :=
  C2_floating_pnl_amended [] posC2 50 "No M1 data for symbol: XAUUSD" rfl

/-- C3: the open-position set is empty before and after processing each
trade in the merged stream — `_process_trade` inserts exactly one
position and removes it before returning, regardless of how the trade's
close_time compares to later trades' open_times — so at most one
position is ever open at a time, and the end-of-horizon forced-close
loop iterates over an empty set (appending no trade-log records). -/
theorem C3_open_set_invariant :
    (∀ (m1 : M1Data) (config : EngineConfig) (st : EngineState)
        (trade : TradeIn) (st2 : EngineState),
        st.open_positions = [] →
        process_trade m1 config st trade = .ok st2 →
        st2.open_positions = [])
    ∧ (∀ (st : EngineState) (pid : String) (pos : Position),
        st.open_positions = [] →
        (open_position_step st pid pos).open_positions = [(pid, pos)])
    ∧ (∀ (m1 : M1Data) (config : EngineConfig) (trades : List TradeIn)
        (st st2 : EngineState),
        st.open_positions = [] →
        trades.foldlM (process_trade m1 config) st = .ok st2 →
        st2.open_positions = [])
    ∧ (∀ (m1 : M1Data) (st : EngineState) (t : Int),
        st.open_positions = [] →
        (close_all_positions m1 st t).trade_log = st.trade_log ∧
        (close_all_positions m1 st t).open_positions = []) := by
  refine ⟨fun m1 config st trade st2 h0 h =>
      process_trade_open_empty h0 h,
    fun st pid pos h0 => ?_,
    fun m1 config trades st st2 h0 h =>
      processFold_open_empty m1 config trades st st2 h0 h,
    fun m1 st t h0 => ⟨(close_all_empty h0).1, (close_all_empty h0).2.2⟩⟩
  simp [open_position_step, dictInsert, h0]

/-- C3 witness: after processing strategy A's trade from the initial
state, the open-position set is empty again. -/
theorem C3_open_set_invariant_witness :
    stAfterA.open_positions = [] :=
  C3_open_set_invariant.1 m1X cfgX (initial_state cfgX) tA stAfterA rfl
    (by with_unfolding_all rfl)

/-- C9: cash changes only at position-close events — every successful
`_process_trade` appends exactly one trade-log record and changes cash by
exactly that record's realized P&L, opening a position never modifies
cash or the log, the whole replay changes cash by exactly the sum of the
logged records' P&L (so cash is unchanged between consecutive closes),
and the same holds for the forced-close loop. -/
theorem C9_cash_changes_only_at_close :
    (∀ (m1 : M1Data) (config : EngineConfig) (st : EngineState)
        (trade : TradeIn) (st2 : EngineState),
        process_trade m1 config st trade = .ok st2 →
        ∃ rec : LoggedTrade, st2.trade_log = st.trade_log ++ [rec] ∧
          st2.cash = st.cash + rec.pnl)
    ∧ (∀ (st : EngineState) (pid : String) (pos : Position),
        (open_position_step st pid pos).cash = st.cash ∧
        (open_position_step st pid pos).trade_log = st.trade_log)
    ∧ (∀ (m1 : M1Data) (config : EngineConfig) (trades : List TradeIn)
        (st st2 : EngineState),
        trades.foldlM (process_trade m1 config) st = .ok st2 →
        ∃ new : List LoggedTrade, st2.trade_log = st.trade_log ++ new ∧
          st2.cash = st.cash + (new.map LoggedTrade.pnl).sum)
    ∧ (∀ (m1 : M1Data) (st : EngineState) (t : Int),
        ∃ new : List LoggedTrade,
          (close_all_positions m1 st t).trade_log = st.trade_log ++ new ∧
          (close_all_positions m1 st t).cash =
            st.cash + (new.map LoggedTrade.pnl).sum) :=
  ⟨fun _ _ _ _ _ h => process_trade_cash_log h,
   fun _ _ _ => ⟨rfl, rfl⟩,
   fun m1 config trades st st2 h =>
     processFold_cash_log m1 config trades st st2 h,
   fun m1 st t => close_all_spec m1 st t⟩

/-- C9 witness: processing strategy A's trade from the initial state
appends exactly one record and moves cash by exactly its P&L. -/
theorem C9_cash_changes_only_at_close_witness :
    ∃ rec : LoggedTrade,
      stAfterA.trade_log = (initial_state cfgX).trade_log ++ [rec] ∧
      stAfterA.cash = (initial_state cfgX).cash + rec.pnl :=
  C9_cash_changes_only_at_close.1 m1X cfgX (initial_state cfgX) tA stAfterA
    (by with_unfolding_all rfl)

/-- C1 (code-bug exhibit): in the replay of A (Buy XAUUSD at t=0, closed
at t=100 for +10000) and B (opens at t=50, before A's close), the engine
sizes B from entry equity 110000 — the cash balance with A's P&L already
realized, because `_process_trade` closes each trade before the next one
is processed — not from 100000 cash plus A's unrealized floating P&L of
5000 marked at B's open_time (which would be 105000 as the claim
requires). -/
theorem C1_sizing_equity_lookahead :
    runEngine m1X cfgX [("A", [rowA]), ("B", [rowB])] = .ok C1result
    ∧ (C1result.trades[0]?).map
        (fun t => (t.size, t.pnl, t.entry_equity)) =
        some (1, 10000, 100000)
    ∧ (C1result.trades[1]?).map (fun t => t.entry_equity) = some 110000
    ∧ calculate_floating_pnl m1X posA 50 = 5000
    ∧ cfgX.portfolio_balance + calculate_floating_pnl m1X posA 50 = 105000
    ∧ (110000 : Rat) ≠ 105000 := by
  refine ⟨by with_unfolding_all rfl, by with_unfolding_all rfl,
    by with_unfolding_all rfl, by with_unfolding_all rfl,
    by with_unfolding_all rfl, by norm_num⟩



theorem ratMax2_left (a b : Rat) : a ≤ ratMax2 a b := by
  unfold ratMax2
  split
  · assumption
  · exact le_rfl

theorem ratMax2_right (a b : Rat) : b ≤ ratMax2 a b := by
  unfold ratMax2
  split
  · exact le_rfl
  · exact (not_le.1 (by assumption)).le

theorem foldl_ratMax2_init (l : List Rat) : ∀ m : Rat, m ≤ l.foldl ratMax2 m := by
  induction l with
  | nil => intro m; exact le_rfl
  | cons e t ih => intro m; exact (ratMax2_left m e).trans (ih (ratMax2 m e))

theorem foldl_ratMax2_mem (l : List Rat) :
    ∀ (m x : Rat), x ∈ l → x ≤ l.foldl ratMax2 m := by
  induction l with
  | nil => intro m x hx; cases hx
  | cons e t ih =>
    intro m x hx
    rcases List.mem_cons.1 hx with rfl | hx
    · exact (ratMax2_right m x).trans (foldl_ratMax2_init t _)
    · exact ih _ x hx

theorem ratMin2_le_left (a b : Rat) : ratMin2 a b ≤ a := by
  unfold ratMin2
  split
  · exact le_rfl
  · exact (not_le.1 (by assumption)).le

theorem ratMin2_le_right (a b : Rat) : ratMin2 a b ≤ b := by
  unfold ratMin2
  split
  · assumption
  · exact le_rfl

theorem foldl_ratMin2_le_init (l : List Rat) :
    ∀ m : Rat, l.foldl ratMin2 m ≤ m := by
  induction l with
  | nil => intro m; exact le_rfl
  | cons e t ih => intro m; exact (ih (ratMin2 m e)).trans (ratMin2_le_left m e)

theorem foldl_ratMin2_le_mem (l : List Rat) :
    ∀ (m x : Rat), x ∈ l → l.foldl ratMin2 m ≤ x := by
  induction l with
  | nil => intro m x hx; cases hx
  | cons e t ih =>
    intro m x hx
    rcases List.mem_cons.1 hx with rfl | hx
    · exact (foldl_ratMin2_le_init t _).trans (ratMin2_le_right m x)
    · exact ih _ x hx

theorem foldl_ratMin2_mem_or (l : List Rat) :
    ∀ m : Rat, l.foldl ratMin2 m = m ∨ l.foldl ratMin2 m ∈ l := by
  induction l with
  | nil => intro m; exact Or.inl rfl
  | cons e t ih =>
    intro m
    rcases ih (ratMin2 m e) with h | h
    · rw [List.foldl_cons, h]
      unfold ratMin2
      split
      · exact Or.inl rfl
      · exact Or.inr (List.mem_cons_self e t)
    · exact Or.inr (List.mem_cons_of_mem e h)

/-- `series.min()` is a lower bound of the series. -/
theorem listMin_le (l : List Rat) (x : Rat) (hx : x ∈ l) : listMin l ≤ x := by
  cases l with
  | nil => cases hx
  | cons y t =>
    rcases List.mem_cons.1 hx with rfl | hx
    · exact foldl_ratMin2_le_init t x
    · exact foldl_ratMin2_le_mem t y x hx

/-- `series.min()` is attained on a nonempty series. -/
theorem listMin_mem (l : List Rat) (h : l ≠ []) : listMin l ∈ l := by
  cases l with
  | nil => exact absurd rfl h
  | cons y t =>
    rcases foldl_ratMin2_mem_or t y with h1 | h1
    · rw [listMin, h1]; exact List.mem_cons_self y t
    · exact List.mem_cons_of_mem y h1

theorem runningMaxAux_length (l : List Rat) :
    ∀ m : Rat, (runningMaxAux m l).length = l.length := by
  induction l with
  | nil => intro m; rfl
  | cons e t ih => intro m; simp [runningMaxAux, ih]

theorem runningMaxList_length (l : List Rat) :
    (runningMaxList l).length = l.length := by
  cases l with
  | nil => rfl
  | cons e t => simp [runningMaxList, runningMaxAux_length]

theorem runningMaxAux_getD (l : List Rat) :
    ∀ (m : Rat) (i : Nat), i < l.length →
      (runningMaxAux m l).getD i 0 = (l.take (i + 1)).foldl ratMax2 m := by
  induction l with
  | nil => intro m i h; simp at h
  | cons e t ih =>
    intro m i h
    cases i with
    | zero => simp [runningMaxAux]
    | succ i =>
      simp only [runningMaxAux, List.getD_cons_succ]
      rw [ih (ratMax2 m e) i (by simpa using h)]
      simp [List.take_succ_cons]

/-- The running maximum at index `i` is the spec's
`running_max(equity[0..i])`. -/
theorem runningMaxList_getD (es : List Rat) (i : Nat) (h : i < es.length) :
    (runningMaxList es).getD i 0 = spec_running_max es i := by
  cases es with
  | nil => simp at h
  | cons e t =>
    cases i with
    | zero => simp [runningMaxList, spec_running_max]
    | succ i =>
      simp only [runningMaxList, List.getD_cons_succ]
      rw [runningMaxAux_getD t e i (by simpa using h)]
      simp [spec_running_max, List.take_succ_cons]

theorem calculate_drawdown_series_length (es : List Rat) :
    (calculate_drawdown_series es).length = es.length := by
  simp [calculate_drawdown_series, runningMaxList_length]

/-- `getD` through `zipWith` where both indices are in range. -/
theorem zipWith_getD (f : Rat → Rat → Rat) :
    ∀ (l1 l2 : List Rat) (i : Nat), i < l1.length → i < l2.length →
      (List.zipWith f l1 l2).getD i 0 =
        f (l1.getD i 0) (l2.getD i 0) := by
  intro l1
  induction l1 with
  | nil => intro l2 i h1 h2; simp at h1
  | cons x xs ih =>
    intro l2 i h1 h2
    cases l2 with
    | nil => simp at h2
    | cons y ys =>
      cases i with
      | zero => simp
      | succ i =>
        simpa using ih ys i (by simpa using h1) (by simpa using h2)

/-- The drawdown series entry at index `i`, in the spec's form. -/
theorem dd_getD (es : List Rat) (i : Nat) (h : i < es.length) :
    (calculate_drawdown_series es).getD i 0 =
      (es.getD i 0 - spec_running_max es i) / spec_running_max es i *
        100 := by
  have hr : i < (runningMaxList es).length := by
    rw [runningMaxList_length]; exact h
  rw [calculate_drawdown_series, zipWith_getD _ es _ i h hr,
    runningMaxList_getD es i h]

/-- The running maximum dominates the current value. -/
theorem getD_le_spec_running_max (es : List Rat) (i : Nat)
    (h : i < es.length) : es.getD i 0 ≤ spec_running_max es i := by
  have htk : i < (es.take (i + 1)).length := by
    simp [List.length_take]; omega
  have hmem : es.getD i 0 ∈ es.take (i + 1) := by
    have h1 : (es.take (i + 1)).getD i 0 = es.getD i 0 := by
      rw [List.getD_eq_getElem _ _ htk, List.getD_eq_getElem _ _ h]
      exact List.getElem_take es
    rw [← h1, List.getD_eq_getElem _ _ htk]
    exact List.getElem_mem _
  unfold spec_running_max
  cases hc : es.take (i + 1) with
  | nil => rw [hc] at hmem; cases hmem
  | cons h0 t0 =>
    rw [hc] at hmem
    rcases List.mem_cons.1 hmem with heq | hmem2
    · rw [heq]; exact foldl_ratMax2_init t0 h0
    · exact foldl_ratMax2_mem t0 h0 _ hmem2

/-- The running maximum of a positive series is positive. -/
theorem spec_running_max_pos (es : List Rat)
    (hpos : ∀ x ∈ es, 0 < x) (i : Nat) (h : i < es.length) :
    0 < spec_running_max es i := by
  unfold spec_running_max
  cases hc : es.take (i + 1) with
  | nil =>
    exfalso
    have h0 : min (i + 1) es.length = 0 := by
      rw [← List.length_take, hc]
      rfl
    omega
  | cons h0 t0 =>
    have hh0 : h0 ∈ es := by
      apply List.take_subset (i + 1)
      rw [hc]
      exact List.mem_cons_self h0 t0
    exact lt_of_lt_of_le (hpos h0 hh0) (foldl_ratMax2_init t0 h0)

/-- Lower bound and attainment of the minimum over the slice
`dd[s..e]`. -/
theorem slice_min_spec (dd : List Rat) (s e : Nat) (hse : s ≤ e)
    (he : e < dd.length) :
    (∀ i, s ≤ i → i ≤ e →
      listMin ((dd.drop s).take (e + 1 - s)) ≤ dd.getD i 0) ∧
    (∃ i, s ≤ i ∧ i ≤ e ∧
      dd.getD i 0 = listMin ((dd.drop s).take (e + 1 - s))) := by
  have hlen : ((dd.drop s).take (e + 1 - s)).length = e + 1 - s := by
    simp [List.length_take, List.length_drop]
    omega
  have hget : ∀ k : Nat, k < ((dd.drop s).take (e + 1 - s)).length →
      ((dd.drop s).take (e + 1 - s)).getD k 0 = dd.getD (s + k) 0 := by
    intro k hk
    have hk2 : k < (dd.drop s).length := by
      simp [List.length_drop]; omega
    have hk3 : s + k < dd.length := by
      simp [List.length_drop] at hk2; omega
    rw [List.getD_eq_getElem _ _ hk, List.getD_eq_getElem _ _ hk3]
    rw [List.getElem_take (dd.drop s), List.getElem_drop dd]
  constructor
  · intro i hsi hie
    have hk : i - s < ((dd.drop s).take (e + 1 - s)).length := by omega
    have heq : ((dd.drop s).take (e + 1 - s)).getD (i - s) 0 =
        dd.getD i 0 := by
      rw [hget (i - s) hk]
      congr 1
      omega
    rw [← heq, List.getD_eq_getElem _ _ hk]
    exact listMin_le _ _ (List.getElem_mem _)
  · have hne : (dd.drop s).take (e + 1 - s) ≠ [] := by
      intro hnil
      rw [hnil] at hlen
      simp at hlen
      omega
    obtain ⟨k, hk, hkeq⟩ :=
      List.mem_iff_getElem.1 (listMin_mem _ hne)
    have h6 : ((dd.drop s).take (e + 1 - s)).getD k 0 =
        listMin ((dd.drop s).take (e + 1 - s)) := by
      rw [List.getD_eq_getElem _ _ hk]
      exact hkeq
    refine ⟨s + k, by omega, by rw [hlen] at hk; omega, ?_⟩
    rw [← hget k hk]
    exact h6

/-- The period record emitted for the run `s .. idx-1` is a maximal
negative run with the right duration and minimum, provided the run is
nonempty, entirely negative, maximal on the left, and terminated on the
right (series end or a nonnegative neighbour). -/
theorem mkDDPeriod_sound (dd : List Rat) (s idx : Nat)
    (hs : s < idx) (hle : idx ≤ dd.length)
    (hneg : ∀ i, s ≤ i → i < idx → dd.getD i 0 < 0)
    (hleft : s = 0 ∨ 0 ≤ dd.getD (s - 1) 0)
    (hright : idx = dd.length ∨ 0 ≤ dd.getD idx 0) :
    PeriodSound dd (mkDDPeriod dd s idx) := by
  obtain ⟨hlb, hex⟩ := slice_min_spec dd s (idx - 1) (by omega) (by omega)
  have he : idx - 1 + 1 - s = idx - s := by omega
  rw [he] at hlb hex
  unfold PeriodSound mkDDPeriod
  simp only []
  refine ⟨by omega, by omega, ?_, hleft, ?_, by omega, ?_, ?_⟩
  · intro i h1 h2
    exact hneg i h1 (by omega)
  · rcases hright with h | h
    · exact Or.inl (by omega)
    · refine Or.inr ?_
      have h2 : idx - 1 + 1 = idx := by omega
      rw [h2]
      exact h
  · intro i h1 h2
    exact hlb i h1 h2
  · exact hex

/-- Invariant-carrying specification of the `find_drawdown_periods`
loop: every emitted period is sound, and every strictly negative index
from the frontier on is covered by an emitted period. -/
theorem fdpGo_spec (dd : List Rat) :
    ∀ (rest : List Rat) (idx : Nat) (start? : Option Nat),
      rest = dd.drop idx → idx ≤ dd.length →
      (match start? with
       | none => idx = 0 ∨ 0 ≤ dd.getD (idx - 1) 0
       | some s => s < idx ∧ (∀ i, s ≤ i → i < idx → dd.getD i 0 < 0) ∧
           (s = 0 ∨ 0 ≤ dd.getD (s - 1) 0)) →
      (∀ p ∈ fdpGo dd idx start? rest, PeriodSound dd p) ∧
      (∀ j, (match start? with | none => idx | some s => s) ≤ j →
        j < dd.length → dd.getD j 0 < 0 →
        ∃ p ∈ fdpGo dd idx start? rest,
          p.start_idx ≤ j ∧ j ≤ p.end_idx) := by
  intro rest
  induction rest with
  | nil =>
    intro idx start? hrest hle hinv
    have hlen : dd.length ≤ idx := by
      have h1 := congrArg List.length hrest
      simp [List.length_drop] at h1
      omega
    cases start? with
    | none =>
      constructor
      · intro p hp
        simp [fdpGo] at hp
      · intro j hj hjlen hneg
        simp only [] at hj
        omega
    | some s =>
      obtain ⟨hs, hneg, hleft⟩ := hinv
      have hsound : PeriodSound dd (mkDDPeriod dd s idx) :=
        mkDDPeriod_sound dd s idx hs hle hneg hleft (Or.inl (by omega))
      constructor
      · intro p hp
        simp only [fdpGo, List.mem_singleton] at hp
        subst hp
        exact hsound
      · intro j hj hjlen hjneg
        simp only [] at hj
        refine ⟨mkDDPeriod dd s idx, by simp [fdpGo], hj, ?_⟩
        show j ≤ idx - 1
        omega
  | cons d rest ih =>
    intro idx start? hrest hle hinv
    have hlt : idx < dd.length := by
      have h1 := congrArg List.length hrest
      simp [List.length_drop] at h1
      omega
    have hdq : dd[idx]? = some d := by
      have h1 := List.getElem?_drop dd idx 0
      rw [← hrest] at h1
      simpa using h1.symm
    have hd : dd.getD idx 0 = d := by
      simp [List.getD_eq_getElem?_getD, hdq]
    have hdrop1 : rest = dd.drop (idx + 1) := by
      have h1 := List.tail_drop dd idx
      rw [← hrest] at h1
      simpa using h1
    cases start? with
    | none =>
      by_cases hdneg : d < 0
      · have hstep : fdpGo dd idx none (d :: rest) =
            fdpGo dd (idx + 1) (some idx) rest := by
          simp [fdpGo, hdneg]
        rw [hstep]
        obtain ⟨ihs, ihc⟩ := ih (idx + 1) (some idx) hdrop1 (by omega)
          ⟨by omega,
           fun i h1 h2 => by
             have h3 : i = idx := by omega
             rw [h3, hd]
             exact hdneg,
           hinv⟩
        exact ⟨ihs, ihc⟩
      · have hstep : fdpGo dd idx none (d :: rest) =
            fdpGo dd (idx + 1) none rest := by
          simp [fdpGo, hdneg]
        rw [hstep]
        obtain ⟨ihs, ihc⟩ := ih (idx + 1) none hdrop1 (by omega)
          (Or.inr (by
            have h2 : idx + 1 - 1 = idx := by omega
            rw [h2, hd]
            exact not_lt.1 hdneg))
        refine ⟨ihs, ?_⟩
        intro j hj hjlen hjneg
        simp only [] at hj
        have hne : j ≠ idx := by
          intro he
          rw [he, hd] at hjneg
          exact hdneg hjneg
        exact ihc j (by simp only []; omega) hjlen hjneg
    | some s =>
      obtain ⟨hs, hnegs, hleft⟩ := hinv
      by_cases hdnn : 0 ≤ d
      · have hstep : fdpGo dd idx (some s) (d :: rest) =
            mkDDPeriod dd s idx :: fdpGo dd (idx + 1) none rest := by
          simp [fdpGo, hdnn]
        rw [hstep]
        have hsound := mkDDPeriod_sound dd s idx hs (by omega) hnegs hleft
          (Or.inr (by rw [hd]; exact hdnn))
        obtain ⟨ihs, ihc⟩ := ih (idx + 1) none hdrop1 (by omega)
          (Or.inr (by
            have h2 : idx + 1 - 1 = idx := by omega
            rw [h2, hd]
            exact hdnn))
        constructor
        · intro p hp
          rcases List.mem_cons.1 hp with rfl | hp
          · exact hsound
          · exact ihs p hp
        · intro j hj hjlen hjneg
          simp only [] at hj
          by_cases hji : j < idx
          · refine ⟨mkDDPeriod dd s idx, List.mem_cons_self _ _, hj, ?_⟩
            show j ≤ idx - 1
            omega
          · have hne : j ≠ idx := by
              intro he
              rw [he, hd] at hjneg
              exact absurd hjneg (not_lt.2 hdnn)
            obtain ⟨p, hp, hc⟩ := ihc j (by simp only []; omega) hjlen hjneg
            exact ⟨p, List.mem_cons_of_mem _ hp, hc⟩
      · have hstep : fdpGo dd idx (some s) (d :: rest) =
            fdpGo dd (idx + 1) (some s) rest := by
          simp [fdpGo, hdnn]
        rw [hstep]
        exact ih (idx + 1) (some s) hdrop1 (by omega)
          ⟨by omega,
           fun i h1 h2 => by
             rcases Nat.lt_or_ge i idx with h3 | h3
             · exact hnegs i h1 h3
             · have h4 : i = idx := by omega
               rw [h4, hd]
               exact not_le.1 hdnn,
           hleft⟩

/-- C7: for every equity series the drawdown series satisfies
`dd[i] = (equity[i] − running_max(equity[0..i])) / running_max(equity[0..i]) × 100`,
and `dd[i] ≤ 0` when all equity values are positive; the period
segmentation returns exactly the maximal contiguous runs where `dd < 0`
(every returned period is such a maximal run with its start/end indices,
duration and minimum drawdown, and every negative index is covered by a
returned period, the unterminated final run included); on
`[100,110,90,95,120]` the series is `[0, 0, −200/11, −150/11, 0]` with
the single period over indices 2–3 of duration 2 and minimum −200/11. -/
theorem C7_drawdown_series_and_periods :
    (∀ (es : List Rat) (i : Nat), i < es.length →
      (calculate_drawdown_series es).getD i 0 =
        (es.getD i 0 - spec_running_max es i) / spec_running_max es i *
          100)
    ∧ (∀ es : List Rat, (∀ x ∈ es, 0 < x) → ∀ i : Nat,
        i < es.length → (calculate_drawdown_series es).getD i 0 ≤ 0)
    ∧ (∀ dd : List Rat, ∀ p ∈ find_drawdown_periods dd, PeriodSound dd p)
    ∧ (∀ (dd : List Rat) (j : Nat), j < dd.length → dd.getD j 0 < 0 →
        ∃ p ∈ find_drawdown_periods dd,
          p.start_idx ≤ j ∧ j ≤ p.end_idx)
    ∧ calculate_drawdown_series [100, 110, 90, 95, 120] =
        [0, 0, -200 / 11, -150 / 11, 0]
    ∧ find_drawdown_periods
        (calculate_drawdown_series [100, 110, 90, 95, 120]) =
        [⟨2, 3, 2, -200 / 11, 2⟩] := by
  refine ⟨dd_getD, ?_, ?_, ?_, by with_unfolding_all rfl,
    by with_unfolding_all rfl⟩
  · intro es hpos i h
    rw [dd_getD es i h]
    have h1 : es.getD i 0 ≤ spec_running_max es i :=
      getD_le_spec_running_max es i h
    have h2 : 0 < spec_running_max es i := spec_running_max_pos es hpos i h
    have h3 : (es.getD i 0 - spec_running_max es i) /
        spec_running_max es i ≤ 0 :=
      div_nonpos_of_nonpos_of_nonneg (by linarith) h2.le
    nlinarith [h3]
  · intro dd p hp
    exact (fdpGo_spec dd dd 0 none (by simp) (Nat.zero_le _)
      (Or.inl rfl)).1 p hp
  · intro dd j hjlen hjneg
    exact (fdpGo_spec dd dd 0 none (by simp) (Nat.zero_le _)
      (Or.inl rfl)).2 j (by simp only []; omega) hjlen hjneg

/-- C7 witness: the nonpositivity part instantiated on the spec's own
positive example series at index 2. -/
theorem C7_drawdown_series_and_periods_witness :
    (calculate_drawdown_series [100, 110, 90, 95, 120]).getD 2 0 ≤ 0 :=
  C7_drawdown_series_and_periods.2.1 [100, 110, 90, 95, 120]
    (by with_unfolding_all decide) 2 (by with_unfolding_all decide)

theorem uniqueFirst_mem : ∀ (l : List String) (a : String),
    a ∈ uniqueFirst l → a ∈ l := by
  intro l
  induction l using uniqueFirst.induct with
  | case1 =>
    intro a h
    rw [uniqueFirst] at h
    cases h
  | case2 b l ih =>
    intro a h
    rw [uniqueFirst] at h
    rcases List.mem_cons.1 h with rfl | h
    · exact List.mem_cons_self a l
    · exact List.mem_cons_of_mem b (List.mem_of_mem_filter (ih a h))

theorem sum_filter_add_sum_filter_not {α : Type} (g : α → Rat)
    (p : α → Bool) :
    ∀ l : List α,
      ((l.filter p).map g).sum + ((l.filter (fun z => !p z)).map g).sum =
        (l.map g).sum := by
  intro l
  induction l with
  | nil => simp
  | cons x xs ih =>
    by_cases hx : p x = true
    · simp only [List.filter_cons, hx, Bool.not_true, if_true,
        List.map_cons, List.sum_cons]
      simp only [Bool.false_eq_true, if_false]
      rw [← ih]
      ring
    · simp only [List.filter_cons, Bool.not_eq_true] at hx
      simp only [List.filter_cons, hx, Bool.not_false, if_true,
        List.map_cons, List.sum_cons]
      simp only [Bool.false_eq_true, if_false]
      rw [← ih]
      ring

/-- Grouping a list by key and summing each group's values recovers the
total sum (the partition property of the attribution analysis). -/
theorem sum_partition {α : Type} (f : α → String) (g : α → Rat) :
    ∀ (n : Nat) (l : List α), l.length ≤ n →
      ((uniqueFirst (l.map f)).map
        (fun a => ((l.filter (fun x => f x == a)).map g).sum)).sum =
        (l.map g).sum := by
  intro n
  induction n with
  | zero =>
    intro l h
    rw [List.length_eq_zero.1 (Nat.le_zero.1 h)]
    simp [uniqueFirst]
  | succ n ih =>
    intro l hlen
    cases l with
    | nil => simp [uniqueFirst]
    | cons x xs =>
      have hmapfilter : (xs.map f).filter (fun y => y != f x) =
          (xs.filter (fun z => f z != f x)).map f := by
        rw [List.filter_map]
        rfl
      have hstep : uniqueFirst ((x :: xs).map f) =
          f x :: uniqueFirst ((xs.filter (fun z => f z != f x)).map f) := by
        rw [List.map_cons, uniqueFirst, hmapfilter]
      rw [hstep, List.map_cons, List.sum_cons]
      have hhead : (((x :: xs).filter (fun z => f z == f x)).map g).sum =
          g x + ((xs.filter (fun z => f z == f x)).map g).sum := by
        simp [List.filter_cons]
      have htail : ∀ a ∈ uniqueFirst
          ((xs.filter (fun z => f z != f x)).map f),
          (((x :: xs).filter (fun z => f z == a)).map g).sum =
          (((xs.filter (fun z => f z != f x)).filter
            (fun z => f z == a)).map g).sum := by
        intro a ha
        have hax : a ≠ f x := by
          have h1 := uniqueFirst_mem _ a ha
          obtain ⟨z, hz, hza⟩ := List.mem_map.1 h1
          have h2 := List.of_mem_filter hz
          intro he
          rw [hza.trans he] at h2
          simp at h2
        have h3 : (x :: xs).filter (fun z => f z == a) =
            xs.filter (fun z => f z == a) := by
          simp only [List.filter_cons]
          have : (f x == a) = false := by
            simp [beq_eq_false_iff_ne]
            exact fun he => hax he.symm
          simp [this]
        have h5 : xs.filter (fun z => f z == a) =
            xs.filter (fun z => f z == a && f z != f x) := by
          apply List.filter_congr
          intro z _
          by_cases hz : f z = a
          · simp [hz, hax]
          · simp [hz]
        rw [h3, List.filter_filter, ← h5]
      rw [List.map_congr_left htail, hhead]
      have hlen2 : (xs.filter (fun z => f z != f x)).length ≤ n := by
        have := List.length_filter_le (fun z => f z != f x) xs
        simp at hlen
        omega
      rw [ih (xs.filter (fun z => f z != f x)) hlen2]
      have hsplit := sum_filter_add_sum_filter_not g
        (fun z => f z == f x) xs
      have hne : (fun z => !(f z == f x)) = (fun z => f z != f x) := by
        funext z
        simp [bne]
      rw [hne] at hsplit
      rw [List.map_cons, List.sum_cons, ← hsplit]
      ring

/-- The `total_pnl` entry of the per-strategy dict is the group's summed
P&L. -/
theorem calc_algo_metrics_total_pnl (trades : List LoggedTrade) :
    (((calc_algo_metrics trades).lookup "total_pnl").getD 0) =
      (trades.map LoggedTrade.pnl).sum := by
  simp [calc_algo_metrics, List.lookup]

/-- C8 counterexample: the attribution analysis emits no
`contribution_pct` entry — on a one-trade log with nonzero total P&L the
strategy's dict lacks the key outright, where the claim requires it to
equal group/total × 100 = 100. -/
theorem C8_attribution_counterexample :
    (((analyze [tC8]).lookup "A").getD []).lookup "contribution_pct" =
      none
    ∧ ([tC8].map LoggedTrade.pnl).sum ≠ 0 := by
  constructor
  · simp [analyze, uniqueFirst, calc_algo_metrics, tC8, List.lookup,
      ratMean]
  · norm_num [tC8]

/-- C8 (amended): the attribution analysis partitions the trade log by
strategy and the per-strategy `total_pnl` values sum to the portfolio's
total realized P&L; the source computes no `contribution_pct`, and the
spec's contribution percentage (group total_pnl / portfolio total_pnl ×
100) sums to 100% over the strategies whenever total P&L ≠ 0. -/
theorem C8_attribution_sums :
    (∀ trades : List LoggedTrade,
      ((analyze trades).map
        (fun e => (e.2.lookup "total_pnl").getD 0)).sum =
        (trades.map LoggedTrade.pnl).sum)
    ∧ (∀ trades : List LoggedTrade,
        (trades.map LoggedTrade.pnl).sum ≠ 0 →
        ((uniqueFirst (trades.map LoggedTrade.algo_name)).map
          (spec_contribution_pct trades)).sum = 100) := by
  constructor
  · intro trades
    by_cases h0 : trades.length = 0
    · rw [List.length_eq_zero.1 h0]
      simp [analyze]
    · rw [analyze, if_neg h0, List.map_map]
      have hcomp : ∀ a ∈ uniqueFirst (trades.map LoggedTrade.algo_name),
          ((fun e : String × List (String × Rat) =>
            (e.2.lookup "total_pnl").getD 0) ∘
           (fun algo_name => (algo_name,
             calc_algo_metrics
               (trades.filter (fun t => t.algo_name == algo_name))))) a =
          ((trades.filter
            (fun t => t.algo_name == a)).map LoggedTrade.pnl).sum := by
        intro a _
        exact calc_algo_metrics_total_pnl _
      rw [List.map_congr_left hcomp]
      exact sum_partition LoggedTrade.algo_name LoggedTrade.pnl
        trades.length trades le_rfl
  · intro trades hT
    have hpart := sum_partition LoggedTrade.algo_name LoggedTrade.pnl
      trades.length trades le_rfl
    have h1 : ∀ a ∈ uniqueFirst (trades.map LoggedTrade.algo_name),
        spec_contribution_pct trades a =
        ((trades.filter (fun t => t.algo_name == a)).map
          LoggedTrade.pnl).sum *
          (100 / (trades.map LoggedTrade.pnl).sum) := by
      intro a _
      unfold spec_contribution_pct
      ring
    rw [List.map_congr_left h1, List.sum_map_mul_right, hpart]
    field_simp

/-- C8 witness: on a one-trade log the spec-modelled contribution
percentages sum to 100. -/
theorem C8_attribution_sums_witness :
    ((uniqueFirst ([tC8].map LoggedTrade.algo_name)).map
      (spec_contribution_pct [tC8])).sum = 100 :=
  C8_attribution_sums.2 [tC8] (by norm_num [tC8])

/-- C10: the metrics calculation is idempotent and side-effect-free —
for every SimulationResult (and every interpretation of the two
irrational float kernels `np.sqrt` and `** (1/years)`), running
`calculate_all` leaves the input state (equity curve and trade log)
unchanged, and running it a second time on that state yields identical
output. -/
theorem C10_metrics_pure_idempotent :
    ∀ (sqrtT : Rat → Rat) (powT : Rat → Rat → Rat)
      (r : SimulationResult),
      ((calculate_all sqrtT powT).run r).2 = r ∧
      ((calculate_all sqrtT powT).run
          (((calculate_all sqrtT powT).run r).2)).1 =
        ((calculate_all sqrtT powT).run r).1 :=
  fun _ _ _ => ⟨rfl, rfl⟩

end PortfolioAnalyzer
